import Mathlib

/-!
# Verification of the BioTender molecular-interaction analysis engine

Shallow embedding of the analysis pipeline:
* the TypeScript library modules (`src/analysis/pdbParser.ts`,
  `src/analysis/spatialGrid.ts`, `src/analysis/bindingSite.ts`,
  `src/analysis/interactions/{hydrophobic,hbond,waterbridge}.ts`), and
* the inlined worker copy (`public/workers/interactionWorker.js`).

Modelling conventions, used consistently below:
* JavaScript double-precision numbers that hold finite coordinate/cutoff
  values are idealised as rationals (`ℚ`); `NaN` results of `parseInt` /
  `parseFloat` are modelled explicitly as `Option` values in the parser
  model (`none` = NaN), since the parser's behaviour on malformed numeric
  text is one of the verified claims.
* JavaScript `Map` objects are modelled as association lists: `set` on an
  existing key updates the entry in place, `set` on a fresh key appends,
  and `values()` enumerates in insertion order — exactly the JS semantics.
* Composite string map keys built with separators (`"ix,iy,iz"`,
  `"chain:resi:resn"`, `"chain:resi:resn:atomName"`, `` `${resi} ${chain}` ``)
  are modelled as tuples of their components.  The JS string encodings are
  injective in the components except for degenerate data containing the
  separator characters themselves; that aliasing is not modelled.
* `Math.sqrt` does not exist on `ℚ`; every use of a real distance
  `d = sqrt d2` in the source is in a comparison (`d ≤ m` becomes
  `0 ≤ m ∧ d2 ≤ m*m`, which is exactly equivalent), in a sort key
  (strictly monotone, so the induced ordering is identical), or in a
  stored record field (we store the squared distance; `toFixed(3)`
  rounding of the displayed value is likewise a monotone transform and is
  not modelled).
-/

namespace BioTender

/-! ## Data model (`src/types/interaction.ts`) -/

/-- An atom record (`Atom` in `interaction.ts`), with finite coordinates. -/
structure Atom where
  serial : Int
  atomName : String
  resn : String
  chain : String
  resi : Int
  x : ℚ
  y : ℚ
  z : ℚ
  element : String
  hetflag : Bool
  altLoc : String
deriving DecidableEq, Repr

/-- `ResidueRef` in `interaction.ts`. -/
structure ResidueRef where
  chain : String
  resi : Int
  resn : String
deriving DecidableEq, Repr

/-- Squared Euclidean distance between two atoms (`distanceSquared` in
`pdbParser.ts`); `distance` in the source is its square root. -/
def dist2 (a b : Atom) : ℚ :=
  (a.x - b.x) * (a.x - b.x) + (a.y - b.y) * (a.y - b.y) + (a.z - b.z) * (a.z - b.z)

/-- Squared distance from the point `(x, y, z)` to atom `a`, as computed
inline in `findAtomsWithinRadius`. -/
def dist2P (x y z : ℚ) (a : Atom) : ℚ :=
  (a.x - x) * (a.x - x) + (a.y - y) * (a.y - y) + (a.z - z) * (a.z - z)

/-- `sqrt d2 ≤ m`, expressed over `ℚ` (for `d2 ≥ 0` this is exactly
equivalent to the source's comparison of the real distance with `m`). -/
def sqrtLe (d2 m : ℚ) : Bool :=
  decide (0 ≤ m) && decide (d2 ≤ m * m)

/-! ## Association-list model of JavaScript `Map` -/

/-- JS `map.get(k)` (first — and only — entry with key `k`). -/
def mapFind? [DecidableEq κ] (m : List (κ × α)) (k : κ) : Option α :=
  (m.find? (fun p => decide (p.1 = k))).map (·.2)

/-- JS `map.set(k, v)` where `v` is the old value with `a` appended
(`grid.get(key).atoms.push(atom)` after `grid.set(key, {atoms: []})` on a
missing key): update in place, or append a fresh singleton entry. -/
def mapPush [DecidableEq κ] (m : List (κ × List α)) (k : κ) (a : α) :
    List (κ × List α) :=
  match m with
  | [] => [(k, [a])]
  | (k', v) :: rest =>
    if k' = k then (k', v ++ [a]) :: rest else (k', v) :: mapPush rest k a

/-- Lookup returning `[]` for a missing key (the query loops skip missing
cells, which is the same as scanning an empty cell). -/
def mapCell [DecidableEq κ] (m : List (κ × List α)) (k : κ) : List α :=
  (mapFind? m k).getD []

/-! ## Spatial grid (`src/analysis/spatialGrid.ts`) -/

/-- Cell index along one axis: `Math.floor(coord / cellSize)`. -/
def cellIdx (c cellSize : ℚ) : Int := ⌊c / cellSize⌋

/-- `getCellKey`: the `"ix,iy,iz"` string key, modelled as the triple. -/
def cellKey (cellSize : ℚ) (a : Atom) : Int × Int × Int :=
  (cellIdx a.x cellSize, cellIdx a.y cellSize, cellIdx a.z cellSize)

/-- `SpatialGrid` (the `bounds` field of the source structure is computed
but never read by any modelled operation, and is omitted). -/
structure SpatialGrid where
  cellSize : ℚ
  grid : List ((Int × Int × Int) × List Atom)

/-- `buildSpatialGrid`: bucket each atom by its cell key, in order. -/
def buildSpatialGrid (atoms : List Atom) (cellSize : ℚ := 5) : SpatialGrid :=
  { cellSize := cellSize
    grid := atoms.foldl (fun m a => mapPush m (cellKey cellSize a) a) [] }

/-- Integer range `[lo, hi]` enumerated by the `for` loops of
`getNeighborCells`. -/
def intRange (lo hi : Int) : List Int :=
  (List.range (hi + 1 - lo).toNat).map (fun n : Nat => lo + (n : Int))

/-- The cell keys enumerated by `getNeighborCells` (outer loop `ix`,
then `iy`, then `iz`). -/
def neighborKeys (x y z radius cellSize : ℚ) : List (Int × Int × Int) :=
  (intRange (cellIdx (x - radius) cellSize) (cellIdx (x + radius) cellSize)).flatMap
    fun ix =>
      (intRange (cellIdx (y - radius) cellSize) (cellIdx (y + radius) cellSize)).flatMap
        fun iy =>
          (intRange (cellIdx (z - radius) cellSize) (cellIdx (z + radius) cellSize)).map
            fun iz => (ix, iy, iz)

/-- The acceptance test of `findAtomsWithinRadius`:
`distSq <= radiusSquared && distSq > 0.0001`. -/
def withinRadius (x y z radius : ℚ) (a : Atom) : Bool :=
  decide (dist2P x y z a ≤ radius * radius) && decide (1 / 10000 < dist2P x y z a)

/-- `findAtomsWithinRadius`: scan the cells of the bounding cube, keep
atoms whose squared distance is `≤ r²` and `> 0.0001`. -/
def findAtomsWithinRadius (g : SpatialGrid) (x y z radius : ℚ) : List Atom :=
  ((neighborKeys x y z radius g.cellSize).flatMap (fun k => mapCell g.grid k)).filter
    (withinRadius x y z radius)

/-- `findNeighbors`: query at an atom's own position, optionally dropping
a serial number afterwards. -/
def findNeighbors (g : SpatialGrid) (a : Atom) (radius : ℚ)
    (excludeAtomSerial : Option Int := none) : List Atom :=
  let result := findAtomsWithinRadius g a.x a.y a.z radius
  match excludeAtomSerial with
  | some s => result.filter (fun b => decide (b.serial ≠ s))
  | none => result

/-- Brute-force reference search, following the spec's words: scan the
whole atom list and keep those whose squared Euclidean distance is `≤ r²`
and `> 0.0001`. -/
def bruteForceNeighbors (atoms : List Atom) (x y z radius : ℚ) : List Atom :=
  atoms.filter (withinRadius x y z radius)

/-! ## JavaScript string helpers

Implemented over `List Char` so that they evaluate structurally; ASCII
data only (all residue/atom/element names in scope are ASCII). -/

/-- JS `s.toUpperCase()` (ASCII). -/
def jsToUpper (s : String) : String := String.mk (s.data.map Char.toUpper)

/-- JS `s.trim()`. -/
def jsTrim (s : String) : String :=
  String.mk (((s.data.dropWhile Char.isWhitespace).reverse.dropWhile
    Char.isWhitespace).reverse)

/-- JS `line.substring(i, j)` (clamping, like the source's use on
fixed-width columns). -/
def jsSubstring (s : String) (i j : Nat) : String :=
  String.mk ((s.data.drop i).take (j - i))

/-! ## Residue-name constants (`pdbParser.ts`, `interactionWorker.js`) -/

/-- `EXCLUDED_RESIDUES`: residue names never treated as ligands. -/
def EXCLUDED_RESIDUES : List String :=
  ["HOH", "WAT", "DOD",
   "NA", "SOD", "CL", "CLA", "MG", "CA", "K", "POT",
   "ZN", "FE", "FE2", "FE3", "MN", "CU", "CO", "NI", "CD", "BA", "SR",
   "BE", "LI", "CS", "AG", "AU", "HG", "AL", "GA", "IN", "TL", "PB",
   "BI", "YB", "EU", "SM", "GD", "TB", "DY", "Y", "W", "MO", "V",
   "CR", "PT", "RU", "RH", "PD", "OS", "IR", "XE", "KR", "F", "BR",
   "I", "S"]

/-- `HYDROPHOBIC_RESIDUES`. -/
def HYDROPHOBIC_RESIDUES : List String :=
  ["ALA", "VAL", "LEU", "ILE", "MET", "PHE", "TRP", "PRO", "TYR"]

/-- `isHydrophobicResidue` (`hydrophobic.ts`). -/
def isHydrophobicResidue (resn : String) : Bool :=
  decide (jsToUpper resn ∈ HYDROPHOBIC_RESIDUES)

/-! ## Ligands and binding sites (`interaction.ts`, `bindingSite.ts`) -/

inductive LigandType where
  | SMALLMOLECULE | ION | WATER
deriving DecidableEq, Repr

structure Ligand where
  siteId : Nat
  chain : String
  resi : Int
  resn : String
  atoms : List Atom
  type : LigandType
deriving DecidableEq, Repr

structure BindingSite where
  siteId : Nat
  ligand : Ligand
  pocketResidues : List ResidueRef
  pocketAtoms : List Atom
deriving DecidableEq, Repr

/-- `getLigandType` (`bindingSite.ts`). -/
def getLigandType (resn : String) : LigandType :=
  let upperResn := jsToUpper resn
  if upperResn ∈ ["HOH", "WAT", "DOD"] then .WATER
  else if upperResn ∈ ["NA", "SOD", "CL", "CLA", "MG", "CA", "K", "POT", "ZN",
      "FE", "MN", "CU", "CO", "NI", "CD", "BA", "SR", "BE", "LI", "CS",
      "AG", "AU"] then .ION
  else .SMALLMOLECULE

/-- `groupLigands` (`pdbParser.ts`): group ligand atoms by the
`chain:resi:resn` key (modelled as a tuple), in encounter order. -/
def groupLigands (ligandAtoms : List Atom) :
    List ((String × Int × String) × List Atom) :=
  ligandAtoms.foldl (fun m a => mapPush m (a.chain, a.resi, a.resn) a) []

/-- JS `Set.add` with the set's contents kept in insertion order
(atom records are compared structurally). -/
def setAdd [DecidableEq α] (s : List α) (a : α) : List α :=
  if a ∈ s then s else s ++ [a]

/-- `findPocketAtoms` (`bindingSite.ts`): union of the protein neighbors
of every ligand atom within the binding-site distance. -/
def findPocketAtoms (ligand : Ligand) (proteinGrid : SpatialGrid)
    (bindingSiteDistance : ℚ) : List Atom :=
  ligand.atoms.foldl
    (fun s la => (findNeighbors proteinGrid la bindingSiteDistance).foldl setAdd s) []

/-- The pocket-residue comparator of `extractResidues`: chain
(`localeCompare`, modelled as lexicographic string order) then residue
sequence ascending. -/
def residueLE (a b : ResidueRef) : Prop :=
  a.chain < b.chain ∨ (a.chain = b.chain ∧ a.resi ≤ b.resi)

instance : DecidableRel residueLE := fun a b => by
  unfold residueLE; infer_instance

/-- `extractResidues` (`bindingSite.ts`): project pocket atoms to residue
references, deduplicate in encounter order, then sort. -/
def extractResidues (atoms : List Atom) : List ResidueRef :=
  let residues := atoms.foldl
    (fun m a => setAdd m (ResidueRef.mk a.chain a.resi a.resn)) []
  List.insertionSort residueLE residues

/-- The recursion of `detectBindingSites` over ligand groups, carrying the
running `siteId` (incremented only when a site is actually pushed). -/
def detectLoop (proteinGrid : SpatialGrid) (bindingSiteDistance : ℚ) :
    List ((String × Int × String) × List Atom) → Nat → List BindingSite
  | [], _ => []
  | (key, atoms) :: rest, siteId =>
    -- the source recovers (chain, resi, resn) from the string key via
    -- `key.split(':')` and `parseInt`; with tuple keys this is projection
    let ligand : Ligand :=
      { siteId := siteId, chain := key.1, resi := key.2.1, resn := key.2.2
        atoms := atoms, type := getLigandType key.2.2 }
    if ligand.type = .WATER then
      detectLoop proteinGrid bindingSiteDistance rest siteId
    else
      let pocketAtoms := findPocketAtoms ligand proteinGrid bindingSiteDistance
      let pocketResidues := extractResidues pocketAtoms
      if pocketResidues.length > 0 then
        { siteId := siteId, ligand := ligand, pocketResidues := pocketResidues
          pocketAtoms := pocketAtoms } ::
          detectLoop proteinGrid bindingSiteDistance rest (siteId + 1)
      else
        detectLoop proteinGrid bindingSiteDistance rest siteId

/-- `detectBindingSites` (`bindingSite.ts`).  The `proteinAtoms` argument
is part of the source signature but unused by its body (queries go
through the grid). -/
def detectBindingSites (_proteinAtoms ligandAtoms : List Atom)
    (proteinGrid : SpatialGrid) (bindingSiteDistance : ℚ) : List BindingSite :=
  detectLoop proteinGrid bindingSiteDistance (groupLigands ligandAtoms) 1

/-! ## Sorting and re-indexing (`interactions.sort(...)` followed by
`interactions.forEach((int, i) => int.index = i + 1)`)

JS `Array.prototype.sort` with a consistent comparator is a stable
comparison sort; `List.insertionSort` is one. -/

/-- Stable sort ascending by a rational key. -/
def sortByKey (key : α → ℚ) (l : List α) : List α :=
  List.insertionSort (fun a b => key a ≤ key b) l

/-- `forEach((rec, i) => rec.index = i + 1)`, starting from `n`. -/
def assignIndices (set : α → Nat → α) : List α → Nat → List α
  | [], _ => []
  | r :: rs, n => set r n :: assignIndices set rs (n + 1)

/-! ## Interaction records (`interaction.ts`)

`residue` is the display string `` `${resi} ${chain}` ``, modelled by its
components; `distance` fields hold squared distances (see the header). -/

structure HydrophobicInteraction where
  index : Nat
  residue : Int × String
  aa : String
  distance : ℚ
  ligandAtomSerial : Int
  proteinAtomSerial : Int
  ligandAtomName : String
  proteinAtomName : String
deriving DecidableEq, Repr

def HydrophobicInteraction.setIndex (r : HydrophobicInteraction) (n : Nat) :
    HydrophobicInteraction := { r with index := n }

structure HbondInteraction where
  index : Nat
  residue : Int × String
  aa : String
  distanceHA : ℚ
  distanceDA : ℚ
  donorAngle : ℚ
  proteinDonor : Bool
  sideChain : Bool
  donorAtomSerial : Int
  acceptorAtomSerial : Int
  donorAtomName : String
  acceptorAtomName : String
deriving DecidableEq, Repr

def HbondInteraction.setIndex (r : HbondInteraction) (n : Nat) :
    HbondInteraction := { r with index := n }

/-! ## Hydrophobic classifier (`hydrophobic.ts`) -/

/-- One hydrophobic record (shared by all three implementations). -/
def mkHydrophobicRec (la pa : Atom) (d2 : ℚ) (idx : Nat) :
    HydrophobicInteraction :=
  { index := idx
    residue := (pa.resi, pa.chain)
    aa := pa.resn
    distance := d2
    ligandAtomSerial := la.serial
    proteinAtomSerial := pa.serial
    ligandAtomName := la.atomName
    proteinAtomName := pa.atomName }

/-- The closest (ligand atom, protein atom) pair search of
`findHydrophobicInteractions`: strict `<` against the running minimum, so
the first minimal pair in encounter order wins. -/
def closestPair (pairs : List (Atom × Atom × ℚ)) : Option (Atom × Atom × ℚ) :=
  pairs.foldl
    (fun best p =>
      match best with
      | none => some p
      | some b => if p.2.2 < b.2.2 then some p else best)
    none

/-- `findHydrophobicInteractions` (`hydrophobic.ts`, residue-level):
for each hydrophobic pocket residue, record the single closest contact. -/
def findHydrophobicInteractions (site : BindingSite) (grid : SpatialGrid)
    (maxDist : ℚ) : List HydrophobicInteraction :=
  let byRes := site.pocketAtoms.foldl
    (fun m a => mapPush m (a.chain, a.resi, a.resn) a) []
  let hres := site.pocketResidues.filter (fun r => isHydrophobicResidue r.resn)
  let base := hres.foldl
    (fun acc residue =>
      let residueAtoms := mapCell byRes (residue.chain, residue.resi, residue.resn)
      if residueAtoms.isEmpty then acc
      else
        let pairs := site.ligand.atoms.flatMap (fun la =>
          (findNeighbors grid la maxDist).filterMap (fun pa =>
            if pa.chain = residue.chain ∧ pa.resi = residue.resi ∧
                pa.resn = residue.resn then
              some (la, pa, dist2 la pa)
            else none))
        match closestPair pairs with
        | some (la, pa, d2) =>
          if sqrtLe d2 maxDist then
            acc ++ [mkHydrophobicRec la pa d2 (acc.length + 1)]
          else acc
        | none => acc)
    []
  assignIndices HydrophobicInteraction.setIndex
    (sortByKey (·.distance) base) 1

/-- Dedup key of the by-atom classifier:
`` `${chain}:${resi}:${resn}:${ligandAtom.serial}` ``. -/
abbrev HydroKey := String × Int × String × Int

/-- Inner neighbor loop of `findHydrophobicInteractionsByAtom`, threading
the `seen` set and the accumulated records (the running `index++` counter
always equals `acc.length + 1`). -/
def hydroByAtomInner (la : Atom) (maxDist : ℚ) :
    List Atom → List HydroKey × List HydrophobicInteraction →
    List HydroKey × List HydrophobicInteraction
  | [], st => st
  | pa :: rest, (seen, acc) =>
    if isHydrophobicResidue pa.resn then
      if sqrtLe (dist2 la pa) maxDist then
        let key : HydroKey := (pa.chain, pa.resi, pa.resn, la.serial)
        if key ∈ seen then hydroByAtomInner la maxDist rest (seen, acc)
        else
          hydroByAtomInner la maxDist rest
            (key :: seen,
             acc ++ [mkHydrophobicRec la pa (dist2 la pa) (acc.length + 1)])
      else hydroByAtomInner la maxDist rest (seen, acc)
    else hydroByAtomInner la maxDist rest (seen, acc)

/-- Outer ligand-atom loop of `findHydrophobicInteractionsByAtom`. -/
def hydroByAtomOuter (grid : SpatialGrid) (maxDist : ℚ) :
    List Atom → List HydroKey × List HydrophobicInteraction →
    List HydroKey × List HydrophobicInteraction
  | [], st => st
  | la :: rest, st =>
    hydroByAtomOuter grid maxDist rest
      (hydroByAtomInner la maxDist (findNeighbors grid la maxDist) st)

/-- `findHydrophobicInteractionsByAtom` (`hydrophobic.ts`): atom-atom
contacts deduplicated by (residue identity, ligand atom serial).  The
source also computes an unused `hydrophobicPocketAtoms` filter, omitted. -/
def findHydrophobicInteractionsByAtom (site : BindingSite) (grid : SpatialGrid)
    (maxDist : ℚ) : List HydrophobicInteraction :=
  let st := hydroByAtomOuter grid maxDist site.ligand.atoms ([], [])
  assignIndices HydrophobicInteraction.setIndex
    (sortByKey (·.distance) st.2) 1

/-! ## Hydrogen-bond classifier (`hbond.ts`) -/

structure DAProps where
  donor : Bool
  acceptor : Bool
  sideChain : Bool
deriving DecidableEq, Repr

/-- `PROTEIN_DONOR_ACCEPTOR_RULES`: the fixed `resn:atomName` lookup
table, keys modelled as pairs. -/
def proteinDonorAcceptorRules : String × String → Option DAProps
  | ("BACKBONE", "N") => some ⟨true, false, false⟩
  | ("BACKBONE", "O") => some ⟨false, true, false⟩
  | ("SER", "OG") => some ⟨true, true, true⟩
  | ("THR", "OG1") => some ⟨true, true, true⟩
  | ("TYR", "OH") => some ⟨true, true, true⟩
  | ("CYS", "SG") => some ⟨true, true, true⟩
  | ("ASN", "ND2") => some ⟨true, false, true⟩
  | ("ASN", "OD1") => some ⟨false, true, true⟩
  | ("GLN", "NE2") => some ⟨true, false, true⟩
  | ("GLN", "OE1") => some ⟨false, true, true⟩
  | ("HIS", "ND1") => some ⟨true, true, true⟩
  | ("HIS", "NE2") => some ⟨true, true, true⟩
  | ("TRP", "NE1") => some ⟨true, true, true⟩
  | ("ARG", "NH1") => some ⟨true, false, true⟩
  | ("ARG", "NH2") => some ⟨true, false, true⟩
  | ("ARG", "NE") => some ⟨true, false, true⟩
  | ("LYS", "NZ") => some ⟨true, false, true⟩
  | ("ASP", "OD1") => some ⟨false, true, true⟩
  | ("ASP", "OD2") => some ⟨false, true, true⟩
  | ("GLU", "OE1") => some ⟨false, true, true⟩
  | ("GLU", "OE2") => some ⟨false, true, true⟩
  | ("HOH", "O") => some ⟨true, true, false⟩
  | ("WAT", "O") => some ⟨true, true, false⟩
  | _ => none

/-- `getProteinAtomProperties` (`hbond.ts`). -/
def getProteinAtomProperties (atom : Atom) : DAProps :=
  let atomName := jsToUpper (jsTrim atom.atomName)
  if atomName = "N" then ⟨true, false, false⟩
  else if atomName = "O" ∨ atomName = "OT1" ∨ atomName = "OXT" then
    ⟨false, true, false⟩
  else
    match proteinDonorAcceptorRules (jsToUpper atom.resn, atomName) with
    | some props => props
    | none =>
      let element := jsToUpper atom.element
      if element = "N" ∨ element = "O" then ⟨true, true, true⟩
      else if element = "S" then ⟨true, true, true⟩
      else ⟨false, false, false⟩

structure LigandDA where
  donor : Bool
  acceptor : Bool
deriving DecidableEq, Repr

/-- `getLigandAtomProperties` (`hbond.ts`). -/
def getLigandAtomProperties (atom : Atom) : LigandDA :=
  let element := jsToUpper atom.element
  if element = "N" ∨ element = "O" then ⟨true, true⟩
  else if element = "S" then ⟨false, true⟩
  else ⟨false, false⟩

/-- One H-bond record, as pushed by `findHbondInteractions`. -/
def mkHbondRec (la pa : Atom) (d2 : ℚ) (proteinIsDonor sideChain : Bool)
    (idx : Nat) : HbondInteraction :=
  { index := idx
    residue := (pa.resi, pa.chain)
    aa := pa.resn
    distanceHA := 0
    distanceDA := d2
    donorAngle := 0
    proteinDonor := proteinIsDonor
    sideChain := sideChain
    donorAtomSerial := if proteinIsDonor then pa.serial else la.serial
    acceptorAtomSerial := if proteinIsDonor then la.serial else pa.serial
    donorAtomName := if proteinIsDonor then pa.atomName else la.atomName
    acceptorAtomName := if proteinIsDonor then la.atomName else pa.atomName }

/-- The record `findHbondInteractions` pushes for the pair `(la, pa)`, if
any (the chain of `continue` guards of the inner loop). -/
def hbondCandidate (la pa : Atom) (maxDist : ℚ) (idx : Nat) :
    Option HbondInteraction :=
  let lp := getLigandAtomProperties la
  let pp := getProteinAtomProperties pa
  if ¬pp.donor ∧ ¬pp.acceptor then none
  else if ¬sqrtLe (dist2 la pa) maxDist then none
  else
    let proteinIsDonor := pp.donor && lp.acceptor
    let ligandIsDonor := lp.donor && pp.acceptor
    if ¬proteinIsDonor ∧ ¬ligandIsDonor then none
    else some (mkHbondRec la pa (dist2 la pa) proteinIsDonor pp.sideChain idx)

/-- Inner neighbor loop of `findHbondInteractions` (the running `index++`
counter always equals `acc.length + 1`). -/
def hbondInner (la : Atom) (maxDist : ℚ) :
    List Atom → List HbondInteraction → List HbondInteraction
  | [], acc => acc
  | pa :: rest, acc =>
    match hbondCandidate la pa maxDist (acc.length + 1) with
    | some rec0 => hbondInner la maxDist rest (acc ++ [rec0])
    | none => hbondInner la maxDist rest acc

/-- Outer ligand-atom loop of `findHbondInteractions`. -/
def hbondOuter (grid : SpatialGrid) (maxDist : ℚ) :
    List Atom → List HbondInteraction → List HbondInteraction
  | [], acc => acc
  | la :: rest, acc =>
    let lp := getLigandAtomProperties la
    if ¬lp.donor ∧ ¬lp.acceptor then hbondOuter grid maxDist rest acc
    else
      hbondOuter grid maxDist rest
        (hbondInner la maxDist (findNeighbors grid la maxDist) acc)

/-- `findHbondInteractions` (`hbond.ts`). -/
def findHbondInteractions (site : BindingSite) (grid : SpatialGrid)
    (maxDist : ℚ) : List HbondInteraction :=
  let base := hbondOuter grid maxDist site.ligand.atoms []
  assignIndices HbondInteraction.setIndex (sortByKey (·.distanceDA) base) 1

/-! ## Analysis parameters (`interaction.ts`, analyzer page) -/

structure AnalysisParams where
  bindingSiteDistance : ℚ
  hydrophobicMaxDist : ℚ
  hbondMaxDist : ℚ
  saltBridgeMaxDist : ℚ
  waterBridgeMaxDist : ℚ
  piStackingMaxDist : ℚ
  piCationMaxDist : ℚ
  halogenBondMaxDist : ℚ
deriving DecidableEq, Repr

/-- `defaultParams` of the interaction-analyzer page. -/
def defaultParams : AnalysisParams :=
  { bindingSiteDistance := 7.5
    hydrophobicMaxDist := 4.0
    hbondMaxDist := 3.5
    saltBridgeMaxDist := 5.5
    waterBridgeMaxDist := 4.1
    piStackingMaxDist := 6.0
    piCationMaxDist := 6.0
    halogenBondMaxDist := 4.0 }

/-! ## Parser model (`pdbParser.ts` / the worker's inlined copy)

JS `parseInt` / `parseFloat` never throw; on text with no usable numeric
prefix they return `NaN`, modelled as `none`.  Atom records parsed from
text therefore carry `Option`-valued numeric fields (`JAtom`). -/

/-- An atom as produced by the text parser: numeric fields may be NaN. -/
structure JAtom where
  serial : Option Int
  atomName : String
  resn : String
  chain : String
  resi : Option Int
  x : Option ℚ
  y : Option ℚ
  z : Option ℚ
  element : String
  hetflag : Bool
  altLoc : String
deriving DecidableEq, Repr

/-- Value of one decimal digit character. -/
def digitVal : Char → Nat
  | '1' => 1 | '2' => 2 | '3' => 3 | '4' => 4 | '5' => 5
  | '6' => 6 | '7' => 7 | '8' => 8 | '9' => 9 | _ => 0

/-- Numeric value of a digit string. -/
def digitsVal (ds : List Char) : Nat :=
  ds.foldl (fun n c => 10 * n + digitVal c) 0

/-- Longest digit prefix, `none` when there is none. -/
def natPrefix (cs : List Char) : Option Nat :=
  let ds := cs.takeWhile Char.isDigit
  if ds.isEmpty then none else some (digitsVal ds)

/-- JS `parseInt(s)` on trimmed input (the sources always trim first):
optional sign, then the longest digit prefix; `NaN` (= `none`) when no
digits follow.  The legacy `0x` hexadecimal prefix is not modelled. -/
def jsParseInt (s : String) : Option Int :=
  match s.data with
  | '-' :: rest => (natPrefix rest).map (fun n => -(n : Int))
  | '+' :: rest => (natPrefix rest).map (fun n => (n : Int))
  | cs => (natPrefix cs).map (fun n => (n : Int))

/-- Exponent suffix accepted by `parseFloat` (`e`/`E`, optional sign,
digits); returns the exponent and ignores a malformed suffix. -/
def floatExponent (cs : List Char) : Int :=
  match cs with
  | 'e' :: rest | 'E' :: rest =>
    (match rest with
     | '-' :: t => ((natPrefix t).map (fun n => -(n : Int))).getD 0
     | '+' :: t => ((natPrefix t).map (fun n => (n : Int))).getD 0
     | t => ((natPrefix t).map (fun n => (n : Int))).getD 0)
  | _ => 0

/-- Unsigned decimal mantissa plus exponent: `digits[.digits][exp]`. -/
def floatMantissa (cs : List Char) : Option ℚ :=
  let ds1 := cs.takeWhile Char.isDigit
  let rest1 := cs.dropWhile Char.isDigit
  let (ds2, rest2) :=
    match rest1 with
    | '.' :: t => (t.takeWhile Char.isDigit, t.dropWhile Char.isDigit)
    | _ => ([], rest1)
  if ds1.isEmpty ∧ ds2.isEmpty then none
  else
    let mantissa : ℚ :=
      (digitsVal ds1 : ℚ) + (digitsVal ds2 : ℚ) / ((10 : ℚ) ^ ds2.length)
    let e := floatExponent rest2
    some (if 0 ≤ e then mantissa * 10 ^ e.toNat else mantissa / 10 ^ (-e).toNat)

/-- JS `parseFloat(s)` on trimmed input: longest valid decimal prefix,
`NaN` (= `none`) when there is none (`Infinity` is not modelled). -/
def jsParseFloat (s : String) : Option ℚ :=
  match s.data with
  | '-' :: rest => (floatMantissa rest).map (fun q => -q)
  | '+' :: rest => floatMantissa rest
  | cs => floatMantissa cs

/-- Scan of `parseElementFromAtomName`: walk the (reversed) trimmed name
from the right, skip digits, prepend up to two letters. -/
def elementScan : List Char → List Char → List Char
  | [], acc => acc
  | c :: rest, acc =>
    if c.isDigit then elementScan rest acc
    else
      let acc' := c :: acc
      if acc'.length = 2 then acc' else elementScan rest acc'

/-- `element[0].toUpperCase() + (element[1]?.toLowerCase() || '')`
(the sources only apply this to non-empty strings). -/
def jsCapitalize (s : String) : String :=
  match s.data with
  | [] => ""
  | c :: rest => String.mk (c.toUpper :: (rest.take 1).map Char.toLower)

/-- `parseElementFromAtomName` (`pdbParser.ts` / worker). -/
def parseElementFromAtomName (atomName : String) : String :=
  let trimmed := jsTrim atomName
  match elementScan trimmed.data.reverse [] with
  | [] => "C"
  | c :: rest => String.mk (c.toUpper :: (rest.take 1).map Char.toLower)

/-- `parseAtomLine`: fixed-column parse of one `ATOM`/`HETATM` record.
`parseInt`/`parseFloat` yield `none` (NaN) on malformed fields — nothing
in the `try` block can actually throw, so the catch branch of the source
is unreachable. -/
def parseAtomLine (line : String) : Option JAtom :=
  if line.data.length < 54 then none
  else
    let recordName := jsTrim (jsSubstring line 0 6)
    if recordName ≠ "ATOM" ∧ recordName ≠ "HETATM" then none
    else
      let serial := jsParseInt (jsTrim (jsSubstring line 6 11))
      let atomName := jsTrim (jsSubstring line 12 16)
      let altLoc := jsTrim (jsSubstring line 16 17)
      let resn := jsTrim (jsSubstring line 17 20)
      let chain := jsTrim (jsSubstring line 21 22)
      let resi := jsParseInt (jsTrim (jsSubstring line 22 26))
      let x := jsParseFloat (jsTrim (jsSubstring line 30 38))
      let y := jsParseFloat (jsTrim (jsSubstring line 38 46))
      let z := jsParseFloat (jsTrim (jsSubstring line 46 54))
      let element0 := jsTrim (jsSubstring line 76 78)
      let element1 :=
        if element0 = "" then parseElementFromAtomName atomName else element0
      let element := jsCapitalize element1
      if element = "H" ∨ element = "D" then none
      else
        some { serial := serial, atomName := atomName, resn := resn
               chain := chain, resi := resi, x := x, y := y, z := z
               element := element, hetflag := recordName = "HETATM"
               altLoc := altLoc }

/-- JS `content.split('\n')`. -/
def splitCharsAux (sep : Char) : List Char → List Char → List (List Char)
  | [], acc => [acc.reverse]
  | c :: rest, acc =>
    if c = sep then acc.reverse :: splitCharsAux sep rest []
    else splitCharsAux sep rest (c :: acc)

def jsSplitLines (s : String) : List String :=
  (splitCharsAux '\n' s.data []).map String.mk

/-- The altLoc-dedup identity key
`` `${chain}:${resi}:${resn}:${atomName}` ``, modelled as a tuple
(a NaN `resi` prints as the fixed token `"NaN"`, so `Option Int` keys
match the JS key equality). -/
abbrev PosKey := String × Option Int × String × String

def posKey (a : JAtom) : PosKey := (a.chain, a.resi, a.resn, a.atomName)

/-- An altLoc code preferred by the parser (`''` or `'A'`). -/
def isPreferredAltLoc (a : JAtom) : Bool := a.altLoc = "" || a.altLoc = "A"

/-- JS `map.set(k, v)`: update in place, or append a fresh entry. -/
def mapSet [DecidableEq κ] (m : List (κ × α)) (k : κ) (v : α) : List (κ × α) :=
  match m with
  | [] => [(k, v)]
  | (k', v') :: rest =>
    if k' = k then (k, v) :: rest else (k', v') :: mapSet rest k v

/-- One step of the altLoc dedup loop of `parsePDB`. -/
def dedupStep (m : List (PosKey × JAtom)) (a : JAtom) : List (PosKey × JAtom) :=
  match mapFind? m (posKey a) with
  | some existing =>
    if isPreferredAltLoc existing then m
    else if isPreferredAltLoc a then mapSet m (posKey a) a
    else m
  | none => mapSet m (posKey a) a

/-- The `atomPositions` map after processing all parsed atoms in order. -/
def dedupAtoms (atoms : List JAtom) : List (PosKey × JAtom) :=
  atoms.foldl dedupStep []

/-- An atom the categorization loop sends to the ligand list: a `HETATM`
record whose residue name is not excluded. -/
def isLigandAtom (a : JAtom) : Bool :=
  a.hetflag && !(decide (jsToUpper a.resn ∈ EXCLUDED_RESIDUES))

structure ParseResult where
  proteinAtoms : List JAtom
  ligandAtoms : List JAtom
  allAtoms : List JAtom
deriving DecidableEq, Repr

/-- `parsePDB`: parse lines, dedup alternate locations, categorize.
(`allAtoms` is laid out as in the worker, `protein ++ ligand`; the
library module instead lists them in dedup order — no modelled claim
depends on it.) -/
def parsePDB (content : String) : ParseResult :=
  let deduped := (dedupAtoms ((jsSplitLines content).filterMap parseAtomLine)).map (·.2)
  let proteinAtoms := deduped.filter (fun a => !(isLigandAtom a))
  let ligandAtoms := deduped.filter isLigandAtom
  { proteinAtoms := proteinAtoms, ligandAtoms := ligandAtoms
    allAtoms := proteinAtoms ++ ligandAtoms }

/-! ## Worker pipeline (`interactionWorker.js`)

The worker operates on parsed `JAtom`s, whose numeric fields may be NaN.
`Math.floor` of NaN is NaN (a `none` cell-key component); a `for` loop
with NaN bounds runs zero iterations; any comparison against NaN is
false — all modelled explicitly below. -/

/-- Cell key of the worker grid (components may be NaN). -/
abbrev JCellKey := Option Int × Option Int × Option Int

def jCellKey (cellSize : ℚ) (a : JAtom) : JCellKey :=
  (a.x.map (fun q => cellIdx q cellSize),
   a.y.map (fun q => cellIdx q cellSize),
   a.z.map (fun q => cellIdx q cellSize))

structure SpatialGridW where
  cellSize : ℚ
  grid : List (JCellKey × List JAtom)

/-- Worker `buildSpatialGrid` (the `bounds` field is never read). -/
def buildSpatialGridW (atoms : List JAtom) (cellSize : ℚ := 5) : SpatialGridW :=
  { cellSize := cellSize
    grid := atoms.foldl (fun m a => mapPush m (jCellKey cellSize a) a) [] }

/-- Squared distance from the finite point `(qx, qy, qz)` to `a`
(NaN when any coordinate of `a` is NaN). -/
def jdist2 (qx qy qz : ℚ) (a : JAtom) : Option ℚ :=
  match a.x, a.y, a.z with
  | some ax, some ay, some az =>
    some ((ax - qx) * (ax - qx) + (ay - qy) * (ay - qy) + (az - qz) * (az - qz))
  | _, _, _ => none

/-- JS `===` on two numbers, either of which may be NaN
(`NaN === x` is false for every `x`). -/
def jsStrictEq (a b : Option Int) : Bool :=
  match a, b with
  | some m, some n => m == n
  | _, _ => false

/-- The worker's cell enumeration, all components finite. -/
def neighborKeysW (x y z radius cellSize : ℚ) : List JCellKey :=
  (intRange (cellIdx (x - radius) cellSize) (cellIdx (x + radius) cellSize)).flatMap
    fun ix =>
      (intRange (cellIdx (y - radius) cellSize) (cellIdx (y + radius) cellSize)).flatMap
        fun iy =>
          (intRange (cellIdx (z - radius) cellSize) (cellIdx (z + radius) cellSize)).map
            fun iz => ((some ix, some iy, some iz) : JCellKey)

/-- Worker `findNeighbors`: returns `(atom, distance)` pairs (the stored
distance is `Math.sqrt(distSq)`; we keep `distSq`, see the header).  A NaN
query coordinate gives NaN loop bounds, hence zero iterations. -/
def findNeighborsW (g : SpatialGridW) (qa : JAtom) (radius : ℚ)
    (excludeSerial : Option Int) : List (JAtom × ℚ) :=
  match qa.x, qa.y, qa.z with
  | some x, some y, some z =>
    ((neighborKeysW x y z radius g.cellSize).flatMap (fun k => mapCell g.grid k)).filterMap
      (fun other =>
        if jsStrictEq other.serial excludeSerial then none
        else
          match jdist2 x y z other with
          | some d2 =>
            if d2 ≤ radius * radius ∧ 1 / 10000 < d2 then some (other, d2)
            else none
          | none => none)
  | _, _, _ => []

/-- Brute-force reference for the worker query, following the spec's
words over the same `JAtom` data: scan the whole list, keep the pairs the
distance test accepts (and that survive the serial exclusion). -/
def bruteForceNeighborsW (atoms : List JAtom) (x y z radius : ℚ)
    (excludeSerial : Option Int) : List (JAtom × ℚ) :=
  atoms.filterMap
    (fun other =>
      if jsStrictEq other.serial excludeSerial then none
      else
        match jdist2 x y z other with
        | some d2 =>
          if d2 ≤ radius * radius ∧ 1 / 10000 < d2 then some (other, d2)
          else none
        | none => none)

structure JLigand where
  siteId : Nat
  chain : String
  resi : Option Int
  resn : String
  atoms : List JAtom
  type : LigandType
deriving DecidableEq, Repr

structure JResidueRef where
  chain : String
  resi : Option Int
  resn : String
deriving DecidableEq, Repr

structure JBindingSite where
  siteId : Nat
  ligand : JLigand
  pocketResidues : List JResidueRef
  pocketAtoms : List JAtom
deriving DecidableEq, Repr

/-- The worker's pocket-residue comparator (chain, then `resi` ascending;
the JS comparator's behaviour on NaN residue numbers is engine-specific
and modelled as "NaN first"). -/
def optIntLE : Option Int → Option Int → Bool
  | some m, some n => decide (m ≤ n)
  | none, _ => true
  | some _, none => false

def jResidueLE (a b : JResidueRef) : Prop :=
  a.chain < b.chain ∨ (a.chain = b.chain ∧ optIntLE a.resi b.resi = true)

instance : DecidableRel jResidueLE := fun a b => by
  unfold jResidueLE; infer_instance

/-- The worker's per-ligand-group step of `detectBindingSites`. -/
def detectLoopW (proteinGrid : SpatialGridW) (bindingSiteDistance : ℚ) :
    List ((String × Option Int × String) × List JAtom) → Nat → List JBindingSite
  | [], _ => []
  | (key, atoms) :: rest, siteId =>
    let resn := key.2.2
    let ligand : JLigand :=
      { siteId := siteId, chain := key.1, resi := key.2.1, resn := resn
        atoms := atoms
        type := if jsToUpper resn = "HOH" ∨ jsToUpper resn = "WAT"
                then .WATER else .SMALLMOLECULE }
    if ligand.type = .WATER then detectLoopW proteinGrid bindingSiteDistance rest siteId
    else
      let pocketAtoms := atoms.foldl
        (fun s la =>
          (findNeighborsW proteinGrid la bindingSiteDistance la.serial).foldl
            (fun s' p => setAdd s' p.1) s)
        []
      let pocketResidues :=
        List.insertionSort jResidueLE
          (pocketAtoms.foldl
            (fun m a => setAdd m (JResidueRef.mk a.chain a.resi a.resn)) [])
      if pocketResidues.length > 0 then
        { siteId := siteId, ligand := ligand, pocketResidues := pocketResidues
          pocketAtoms := pocketAtoms } ::
          detectLoopW proteinGrid bindingSiteDistance rest (siteId + 1)
      else detectLoopW proteinGrid bindingSiteDistance rest siteId

/-- Worker `detectBindingSites`. -/
def detectBindingSitesW (_proteinAtoms ligandAtoms : List JAtom)
    (proteinGrid : SpatialGridW) (bindingSiteDistance : ℚ) : List JBindingSite :=
  detectLoopW proteinGrid bindingSiteDistance
    (ligandAtoms.foldl (fun m a => mapPush m (a.chain, a.resi, a.resn) a) []) 1

structure JHydrophobicInteraction where
  index : Nat
  residue : Option Int × String
  aa : String
  distance : ℚ
  ligandAtomSerial : Option Int
  proteinAtomSerial : Option Int
  ligandAtomName : String
  proteinAtomName : String
deriving DecidableEq, Repr

def JHydrophobicInteraction.setIndex (r : JHydrophobicInteraction) (n : Nat) :
    JHydrophobicInteraction := { r with index := n }

abbrev JHydroKey := String × Option Int × String × Option Int

def mkJHydrophobicRec (la pa : JAtom) (d2 : ℚ) (idx : Nat) :
    JHydrophobicInteraction :=
  { index := idx
    residue := (pa.resi, pa.chain)
    aa := pa.resn
    distance := d2
    ligandAtomSerial := la.serial
    proteinAtomSerial := pa.serial
    ligandAtomName := la.atomName
    proteinAtomName := pa.atomName }

/-- Inner neighbor loop of the worker's hydrophobic classifier. -/
def hydroInnerW (la : JAtom) (maxDist : ℚ) :
    List (JAtom × ℚ) → List JHydroKey × List JHydrophobicInteraction →
    List JHydroKey × List JHydrophobicInteraction
  | [], st => st
  | (pa, d2) :: rest, (seen, acc) =>
    if decide (jsToUpper pa.resn ∈ HYDROPHOBIC_RESIDUES) then
      if sqrtLe d2 maxDist then
        let key : JHydroKey := (pa.chain, pa.resi, pa.resn, la.serial)
        if key ∈ seen then hydroInnerW la maxDist rest (seen, acc)
        else
          hydroInnerW la maxDist rest
            (key :: seen, acc ++ [mkJHydrophobicRec la pa d2 (acc.length + 1)])
      else hydroInnerW la maxDist rest (seen, acc)
    else hydroInnerW la maxDist rest (seen, acc)

/-- Outer ligand-atom loop of the worker's hydrophobic classifier. -/
def hydroOuterW (grid : SpatialGridW) (maxDist : ℚ) :
    List JAtom → List JHydroKey × List JHydrophobicInteraction →
    List JHydroKey × List JHydrophobicInteraction
  | [], st => st
  | la :: rest, st =>
    hydroOuterW grid maxDist rest
      (hydroInnerW la maxDist (findNeighborsW grid la maxDist la.serial) st)

/-- Worker `findHydrophobicInteractions` (the `hydrophobicPocketAtoms`
filter of the source is computed but unused, and omitted). -/
def findHydrophobicInteractionsW (site : JBindingSite) (grid : SpatialGridW)
    (maxDist : ℚ) : List JHydrophobicInteraction :=
  let st := hydroOuterW grid maxDist site.ligand.atoms ([], [])
  assignIndices JHydrophobicInteraction.setIndex
    (sortByKey (·.distance) st.2) 1

structure JHbondInteraction where
  index : Nat
  residue : Option Int × String
  aa : String
  distanceHA : ℚ
  distanceDA : ℚ
  donorAngle : ℚ
  proteinDonor : Bool
  sideChain : Bool
  donorAtomSerial : Option Int
  acceptorAtomSerial : Option Int
  donorAtomName : String
  acceptorAtomName : String
deriving DecidableEq, Repr

def JHbondInteraction.setIndex (r : JHbondInteraction) (n : Nat) :
    JHbondInteraction := { r with index := n }

/-- The worker's protein donor/acceptor rules: backbone names, then the
bare element rule — the worker has no per-residue side-chain table
(`isSideChain` is initialised `true` and only cleared by the backbone
branches). -/
def workerProteinProps (atom : JAtom) : DAProps :=
  let atomName := jsToUpper (jsTrim atom.atomName)
  if atomName = "N" then ⟨true, false, false⟩
  else if atomName = "O" ∨ atomName = "OT1" ∨ atomName = "OXT" then
    ⟨false, true, false⟩
  else
    let element := jsToUpper atom.element
    if element = "N" ∨ element = "O" ∨ element = "S" then ⟨true, true, true⟩
    else ⟨false, false, true⟩

/-- The worker's `proteinDonorAcceptors` map over the pocket atoms, keyed
by serial (JS `Map` keys use SameValueZero, under which NaN keys match;
structural equality on `Option Int` models that). -/
def proteinDonorAcceptorsW (pocketAtoms : List JAtom) :
    List (Option Int × (DAProps × JAtom)) :=
  pocketAtoms.foldl
    (fun m atom =>
      let props := workerProteinProps atom
      if props.donor || props.acceptor then mapSet m atom.serial (props, atom)
      else m)
    []

def mkJHbondRec (la pa : JAtom) (d2 : ℚ) (proteinIsDonor sideChain : Bool)
    (idx : Nat) : JHbondInteraction :=
  { index := idx
    residue := (pa.resi, pa.chain)
    aa := pa.resn
    distanceHA := 0
    distanceDA := d2
    donorAngle := 0
    proteinDonor := proteinIsDonor
    sideChain := sideChain
    donorAtomSerial := if proteinIsDonor then pa.serial else la.serial
    acceptorAtomSerial := if proteinIsDonor then la.serial else pa.serial
    donorAtomName := if proteinIsDonor then pa.atomName else la.atomName
    acceptorAtomName := if proteinIsDonor then la.atomName else pa.atomName }

/-- The record the worker's H-bond inner loop pushes for `(la, pa)`, if
any. -/
def hbondCandidateW (daMap : List (Option Int × (DAProps × JAtom)))
    (la : JAtom) (pa : JAtom) (d2 : ℚ) (maxDist : ℚ) (idx : Nat) :
    Option JHbondInteraction :=
  let element := jsToUpper la.element
  let ligandIsDonor := element = "N" ∨ element = "O"
  let ligandIsAcceptor := element = "O" ∨ element = "N" ∨ element = "S"
  match mapFind? daMap pa.serial with
  | none => none
  | some (props, _) =>
    let proteinIsDonor := props.donor && decide ligandIsAcceptor
    let ligandActsAsDonor := decide ligandIsDonor && props.acceptor
    if ¬proteinIsDonor ∧ ¬ligandActsAsDonor then none
    else if ¬sqrtLe d2 maxDist then none
    else some (mkJHbondRec la pa d2 proteinIsDonor props.sideChain idx)

/-- Inner neighbor loop of the worker's H-bond classifier. -/
def hbondInnerW (daMap : List (Option Int × (DAProps × JAtom))) (la : JAtom)
    (maxDist : ℚ) :
    List (JAtom × ℚ) → List JHbondInteraction → List JHbondInteraction
  | [], acc => acc
  | (pa, d2) :: rest, acc =>
    match hbondCandidateW daMap la pa d2 maxDist (acc.length + 1) with
    | some rec0 => hbondInnerW daMap la maxDist rest (acc ++ [rec0])
    | none => hbondInnerW daMap la maxDist rest acc

/-- Outer ligand-atom loop of the worker's H-bond classifier. -/
def hbondOuterW (daMap : List (Option Int × (DAProps × JAtom)))
    (grid : SpatialGridW) (maxDist : ℚ) :
    List JAtom → List JHbondInteraction → List JHbondInteraction
  | [], acc => acc
  | la :: rest, acc =>
    let element := jsToUpper la.element
    let ligandIsDonor := element = "N" ∨ element = "O"
    let ligandIsAcceptor := element = "O" ∨ element = "N" ∨ element = "S"
    if ¬ligandIsDonor ∧ ¬ligandIsAcceptor then
      hbondOuterW daMap grid maxDist rest acc
    else
      hbondOuterW daMap grid maxDist rest
        (hbondInnerW daMap la maxDist
          (findNeighborsW grid la maxDist la.serial) acc)

/-- Worker `findHbondInteractions`. -/
def findHbondInteractionsW (site : JBindingSite) (grid : SpatialGridW)
    (maxDist : ℚ) : List JHbondInteraction :=
  let daMap := proteinDonorAcceptorsW site.pocketAtoms
  let base := hbondOuterW daMap grid maxDist site.ligand.atoms []
  assignIndices JHbondInteraction.setIndex (sortByKey (·.distanceDA) base) 1

/-- Worker `findWaterbridgeInteractions`: unconditionally empty (the
element type of the list is irrelevant and modelled as `Unit`). -/
def findWaterbridgeInteractionsW : List Unit := []

/-! ## The worker's `analyzePDB` orchestrator -/

structure ProgressEvent where
  status : String
  progress : ℚ
  message : String
  currentSite : Option Nat
  totalSites : Option Nat
deriving DecidableEq, Repr

structure JSiteInteractions where
  siteId : Nat
  ligand : JLigand
  hydrophobic : List JHydrophobicInteraction
  hbond : List JHbondInteraction
  waterbridge : List Unit
  saltbridge : List Unit
  pistacking : List Unit
  pication : List Unit
  halogenbond : List Unit
deriving DecidableEq, Repr

structure JStats where
  totalAtoms : Nat
  proteinAtoms : Nat
  ligandAtoms : Nat
  totalSites : Nat
  totalHydrophobic : Nat
  totalHbond : Nat
  totalWaterbridge : Nat
  analysisTime : Int
deriving DecidableEq, Repr

structure JAnalysisResult where
  success : Bool
  filename : String
  timestamp : Int
  params : AnalysisParams
  ligands : List JLigand
  bindingSites : List JBindingSite
  interactions : List JSiteInteractions
  stats : JStats
deriving DecidableEq, Repr

/-- The per-site loop of `analyzePDB`: two progress events and the two
classifier runs per site, accumulating interaction reports and totals. -/
def siteLoop (grid : SpatialGridW) (params : AnalysisParams) (n : Nat) :
    List (Nat × JBindingSite) →
    List ProgressEvent × List JSiteInteractions × Nat × Nat →
    List ProgressEvent × List JSiteInteractions × Nat × Nat
  | [], st => st
  | (i, site) :: rest, (evs, ints, totH, totB) =>
    let evs1 := evs ++
      [⟨"analyzing-hydrophobic", 40 + ((i : ℚ) / (n : ℚ)) * 20,
        s!"Analyzing site {i + 1}/{n}...", some (i + 1), some n⟩]
    let hydrophobic := findHydrophobicInteractionsW site grid params.hydrophobicMaxDist
    let evs2 := evs1 ++
      [⟨"analyzing-hbond", 60 + ((i : ℚ) / (n : ℚ)) * 20,
        s!"Analyzing H-bonds for site {i + 1}...", some (i + 1), some n⟩]
    let hbond := findHbondInteractionsW site grid params.hbondMaxDist
    let waterbridge := findWaterbridgeInteractionsW
    siteLoop grid params n rest
      (evs2,
       ints ++ [{ siteId := site.siteId, ligand := site.ligand
                  hydrophobic := hydrophobic, hbond := hbond
                  waterbridge := waterbridge, saltbridge := []
                  pistacking := [], pication := [], halogenbond := [] }],
       totH + hydrophobic.length, totB + hbond.length)

/-- Worker `analyzePDB`: the staged pipeline, returning the progress
events it emits and either the result or the thrown error message (wall
clock readings `Date.now()` are passed in as `startTime`/`endTime`). -/
def analyzePDB (content : String) (filename : String) (params : AnalysisParams)
    (startTime endTime : Int) :
    List ProgressEvent × Except String JAnalysisResult :=
  let evs0 := [ProgressEvent.mk "parsing" 10 "Parsing PDB file..." none none]
  let parsed := parsePDB content
  if parsed.ligandAtoms.isEmpty then
    (evs0, .error "No ligands found in PDB file")
  else
    let evs1 := evs0 ++
      [ProgressEvent.mk "building-grid" 20 "Building spatial index..." none none]
    let proteinGrid := buildSpatialGridW parsed.proteinAtoms 5
    let evs2 := evs1 ++
      [ProgressEvent.mk "finding-sites" 30 "Detecting binding sites..." none none]
    let bindingSites := detectBindingSitesW parsed.proteinAtoms
      parsed.ligandAtoms proteinGrid params.bindingSiteDistance
    if bindingSites.isEmpty then
      (evs2, .error "No binding sites found")
    else
      let n := bindingSites.length
      let (evs3, interactions, totalHydrophobic, totalHbond) :=
        siteLoop proteinGrid params n bindingSites.enum (evs2, [], 0, 0)
      let evs4 := evs3 ++
        [ProgressEvent.mk "complete" 100 "Analysis complete" none none]
      (evs4,
       .ok { success := true, filename := filename, timestamp := endTime
             params := params
             ligands := bindingSites.map (·.ligand)
             bindingSites := bindingSites
             interactions := interactions
             stats := { totalAtoms := parsed.allAtoms.length
                        proteinAtoms := parsed.proteinAtoms.length
                        ligandAtoms := parsed.ligandAtoms.length
                        totalSites := bindingSites.length
                        totalHydrophobic := totalHydrophobic
                        totalHbond := totalHbond
                        totalWaterbridge := 0
                        analysisTime := endTime - startTime } })

/-- The altLoc-preference rule, following the spec's words: keep the
first record with an empty or `"A"` alternate-location code; with no such
candidate keep the first record encountered. -/
def firstPreferred (l : List JAtom) : Option JAtom :=
  match l.find? isPreferredAltLoc with
  | some a => some a
  | none => l.head?

/-- The (protein residue identity, ligand atom serial) pair carried by a
hydrophobic record: its `residue` display pair, `aa`, and ligand serial. -/
def hydroRecKey (r : HydrophobicInteraction) : (Int × String) × String × Int :=
  (r.residue, r.aa, r.ligandAtomSerial)

/-- The reshuffle between the dedup key `(chain, resi, resn, serial)` and
the record-level pair `((resi, chain), resn, serial)`. -/
def hydroKeyToRecKey (k : HydroKey) : (Int × String) × String × Int :=
  ((k.2.1, k.1), k.2.2.1, k.2.2.2)

/-! ## Concrete sample data (used by witnesses and counterexamples) -/

/-- A hydrophobic (ALA) protein atom at the origin. -/
def wProteinCB : Atom :=
  { serial := 1, atomName := "CB", resn := "ALA", chain := "A", resi := 1
    x := 0, y := 0, z := 0, element := "C", hetflag := false, altLoc := "" }

/-- A ligand atom 3 Å from `wProteinCB` along the x axis. -/
def wLig1 : Atom :=
  { serial := 101, atomName := "C1", resn := "LIG", chain := "A", resi := 10
    x := 3, y := 0, z := 0, element := "C", hetflag := true, altLoc := "" }

/-- A second ligand atom 3 Å from `wProteinCB` along the y axis. -/
def wLig2 : Atom :=
  { serial := 102, atomName := "C2", resn := "LIG", chain := "A", resi := 10
    x := 0, y := 3, z := 0, element := "C", hetflag := true, altLoc := "" }

def wLigand : Ligand :=
  { siteId := 1, chain := "A", resi := 10, resn := "LIG"
    atoms := [wLig1, wLig2], type := .SMALLMOLECULE }

def wSite : BindingSite :=
  { siteId := 1, ligand := wLigand
    pocketResidues := [⟨"A", 1, "ALA"⟩], pocketAtoms := [wProteinCB] }

def wGrid : SpatialGrid := buildSpatialGrid [wProteinCB] 5

/-- An aspartate carboxylate oxygen (protein side), worker model. -/
def wAspOD1 : JAtom :=
  { serial := some 11, atomName := "OD1", resn := "ASP", chain := "A"
    resi := some 1, x := some 0, y := some 0, z := some 0, element := "O"
    hetflag := false, altLoc := "" }

/-- A ligand oxygen 3 Å from `wAspOD1`, worker model. -/
def wJLig1 : JAtom :=
  { serial := some 101, atomName := "O1", resn := "LIG", chain := "A"
    resi := some 10, x := some 3, y := some 0, z := some 0, element := "O"
    hetflag := true, altLoc := "" }

def wJLigand : JLigand :=
  { siteId := 1, chain := "A", resi := some 10, resn := "LIG"
    atoms := [wJLig1], type := .SMALLMOLECULE }

def wJSite : JBindingSite :=
  { siteId := 1, ligand := wJLigand
    pocketResidues := [⟨"A", some 1, "ASP"⟩], pocketAtoms := [wAspOD1] }

def wJGrid : SpatialGridW := buildSpatialGridW [wAspOD1] 5

/-- A well-formed protein `ATOM` record. -/
def wProteinLine : String :=
  "ATOM      1  CB  ALA A   1       0.000   0.000   0.000  1.00  0.00           C"

/-- A well-formed ligand `HETATM` record. -/
def wLigandLine : String :=
  "HETATM  101  C1  LIG A  10       3.000   0.000   0.000  1.00  0.00           C"

/-- A `HETATM` record whose x-coordinate columns hold non-numeric text. -/
def wBadXLine : String :=
  "HETATM    7  C1  LIG A   1         abc  10.000  10.000  1.00  0.00           C"

/-- The atom `wBadXLine` parses to: kept, with a NaN x coordinate. -/
def wBadXAtom : JAtom :=
  { serial := some 7, atomName := "C1", resn := "LIG", chain := "A"
    resi := some 1, x := none, y := some 10, z := some 10, element := "C"
    hetflag := true, altLoc := "" }

/-- The atom `wLigandLine` parses to. -/
def wParsedLig : JAtom :=
  { serial := some 101, atomName := "C1", resn := "LIG", chain := "A"
    resi := some 10, x := some 3, y := some 0, z := some 0, element := "C"
    hetflag := true, altLoc := "" }

/-- Two parsed records at the same identity key with altLoc `A` and `B`. -/
def wAltA : JAtom :=
  { serial := some 1, atomName := "CA", resn := "ALA", chain := "A"
    resi := some 1, x := some 0, y := some 0, z := some 0, element := "C"
    hetflag := false, altLoc := "A" }

def wAltB : JAtom :=
  { serial := some 2, atomName := "CA", resn := "ALA", chain := "A"
    resi := some 1, x := some 1, y := some 0, z := some 0, element := "C"
    hetflag := false, altLoc := "B" }

/-- A water oxygen (protein-side spatial context). -/
def wWaterO : Atom :=
  { serial := 500, atomName := "O", resn := "HOH", chain := "A", resi := 300
    x := 0, y := 0, z := 0, element := "O", hetflag := true, altLoc := "" }

/-- An arginine guanidinium nitrogen. -/
def wArgNE : Atom :=
  { serial := 21, atomName := "NE", resn := "ARG", chain := "A", resi := 2
    x := 0, y := 0, z := 0, element := "N", hetflag := false, altLoc := "" }

/-- A library-model aspartate carboxylate oxygen. -/
def wAspOD1Q : Atom :=
  { serial := 11, atomName := "OD1", resn := "ASP", chain := "A", resi := 1
    x := 0, y := 0, z := 0, element := "O", hetflag := false, altLoc := "" }

/-- An atom not covered by any named rule (cysteine-like sulfur with a
non-table atom name). -/
def wFallbackS : Atom :=
  { serial := 31, atomName := "SD", resn := "MET", chain := "A", resi := 3
    x := 0, y := 0, z := 0, element := "S", hetflag := false, altLoc := "" }

/-! ## Lemmas: grid lookup as a filter -/

theorem mapCell_mapPush [DecidableEq κ] (m : List (κ × List α)) (k' k : κ) (a : α) :
    mapCell (mapPush m k' a) k = mapCell m k ++ if k' = k then [a] else [] := by
  induction m with
  | nil =>
    by_cases h : k' = k <;> simp [mapPush, mapCell, mapFind?, h]
  | cons p rest ih =>
    obtain ⟨k₀, v⟩ := p
    by_cases h0 : k₀ = k'
    · subst h0
      by_cases h : k₀ = k <;> simp [mapPush, mapCell, mapFind?, h]
    · by_cases h : k₀ = k
      · subst h
        have h1 : ¬ k' = k₀ := fun hh => h0 hh.symm
        simp only [mapPush, if_neg h0]
        simp [mapCell, mapFind?, h1]
      · simp only [mapPush, if_neg h0]
        simpa [mapCell, mapFind?, h] using ih

theorem mapCell_foldl_mapPush [DecidableEq κ] (key : α → κ) (atoms : List α)
    (m : List (κ × List α)) (k : κ) :
    mapCell (atoms.foldl (fun m a => mapPush m (key a) a) m) k =
      mapCell m k ++ atoms.filter (fun a => decide (key a = k)) := by
  induction atoms generalizing m with
  | nil => simp
  | cons a rest ih =>
    simp only [List.foldl_cons, List.filter_cons]
    rw [ih, mapCell_mapPush]
    by_cases h : key a = k
    · simp [h]
    · simp [h]

theorem mem_intRange {lo hi n : Int} : n ∈ intRange lo hi ↔ lo ≤ n ∧ n ≤ hi := by
  unfold intRange
  rw [List.mem_map]
  constructor
  · rintro ⟨m, hm, rfl⟩
    rw [List.mem_range] at hm
    omega
  · intro h
    exact ⟨(n - lo).toNat, List.mem_range.mpr (by omega), by omega⟩

theorem mem_neighborKeys {x y z r cs : ℚ} {k : Int × Int × Int} :
    k ∈ neighborKeys x y z r cs ↔
      (cellIdx (x - r) cs ≤ k.1 ∧ k.1 ≤ cellIdx (x + r) cs) ∧
      (cellIdx (y - r) cs ≤ k.2.1 ∧ k.2.1 ≤ cellIdx (y + r) cs) ∧
      (cellIdx (z - r) cs ≤ k.2.2 ∧ k.2.2 ≤ cellIdx (z + r) cs) := by
  obtain ⟨kx, ky, kz⟩ := k
  simp only [neighborKeys, List.mem_flatMap, List.mem_map, mem_intRange]
  constructor
  · rintro ⟨ix, hix, iy, hiy, iz, hiz, h⟩
    obtain ⟨rfl, rfl, rfl⟩ : ix = kx ∧ iy = ky ∧ iz = kz := by
      simpa [Prod.ext_iff] using h
    exact ⟨hix, hiy, hiz⟩
  · rintro ⟨hx, hy, hz⟩
    exact ⟨kx, hx, ky, hy, kz, hz, rfl⟩

theorem cellIdx_mono {a b cs : ℚ} (hcs : 0 < cs) (h : a ≤ b) :
    cellIdx a cs ≤ cellIdx b cs := by
  unfold cellIdx
  exact Int.floor_le_floor (by gcongr)

/-- An atom passing the squared-distance test lies in the bounding cube,
hence its cell is among the enumerated cells. -/
theorem cellKey_mem_neighborKeys {x y z r cs : ℚ} {a : Atom} (hcs : 0 < cs)
    (hr : 0 ≤ r) (h : dist2P x y z a ≤ r * r) :
    cellKey cs a ∈ neighborKeys x y z r cs := by
  have hxx : (a.x - x) * (a.x - x) ≤ r * r := by
    have h1 := mul_self_nonneg (a.y - y)
    have h2 := mul_self_nonneg (a.z - z)
    unfold dist2P at h
    nlinarith
  have hyy : (a.y - y) * (a.y - y) ≤ r * r := by
    have h1 := mul_self_nonneg (a.x - x)
    have h2 := mul_self_nonneg (a.z - z)
    unfold dist2P at h
    nlinarith
  have hzz : (a.z - z) * (a.z - z) ≤ r * r := by
    have h1 := mul_self_nonneg (a.x - x)
    have h2 := mul_self_nonneg (a.y - y)
    unfold dist2P at h
    nlinarith
  have bound : ∀ c q : ℚ, (c - q) * (c - q) ≤ r * r →
      cellIdx (q - r) cs ≤ cellIdx c cs ∧ cellIdx c cs ≤ cellIdx (q + r) cs := by
    intro c q hcq
    have hlo : q - r ≤ c := by nlinarith
    have hhi : c ≤ q + r := by nlinarith
    exact ⟨cellIdx_mono hcs hlo, cellIdx_mono hcs hhi⟩
  rw [mem_neighborKeys]
  exact ⟨bound a.x x hxx, bound a.y y hyy, bound a.z z hzz⟩

/-- Membership in the grid query, characterised. -/
theorem mem_findAtomsWithinRadius {atoms : List Atom} {cs x y z r : ℚ}
    (hcs : 0 < cs) (hr : 0 ≤ r) (a : Atom) :
    a ∈ findAtomsWithinRadius (buildSpatialGrid atoms cs) x y z r ↔
      a ∈ bruteForceNeighbors atoms x y z r := by
  unfold findAtomsWithinRadius bruteForceNeighbors buildSpatialGrid
  simp only [List.mem_filter, List.mem_flatMap]
  constructor
  · rintro ⟨⟨k, hk, ha⟩, hw⟩
    rw [mapCell_foldl_mapPush] at ha
    simp only [mapCell, mapFind?, List.find?_nil, Option.map_none', Option.getD_none,
      List.nil_append, List.mem_filter, decide_eq_true_eq] at ha
    exact ⟨ha.1, hw⟩
  · rintro ⟨ha, hw⟩
    refine ⟨⟨cellKey cs a, ?_, ?_⟩, hw⟩
    · have hd : dist2P x y z a ≤ r * r := by
        have := of_decide_eq_true ((Bool.and_eq_true _ _).mp hw).1
        exact this
      exact cellKey_mem_neighborKeys hcs hr hd
    · rw [mapCell_foldl_mapPush]
      simp [mapCell, mapFind?, List.mem_filter, ha]

theorem mem_neighborKeysW {x y z r cs : ℚ} {k : JCellKey} :
    k ∈ neighborKeysW x y z r cs ↔
      ∃ kx ky kz, k = (some kx, some ky, some kz) ∧
        (cellIdx (x - r) cs ≤ kx ∧ kx ≤ cellIdx (x + r) cs) ∧
        (cellIdx (y - r) cs ≤ ky ∧ ky ≤ cellIdx (y + r) cs) ∧
        (cellIdx (z - r) cs ≤ kz ∧ kz ≤ cellIdx (z + r) cs) := by
  simp only [neighborKeysW, List.mem_flatMap, List.mem_map, mem_intRange]
  constructor
  · rintro ⟨ix, hix, iy, hiy, iz, hiz, h⟩
    exact ⟨ix, iy, iz, h.symm, hix, hiy, hiz⟩
  · rintro ⟨kx, ky, kz, rfl, hx, hy, hz⟩
    exact ⟨kx, hx, ky, hy, kz, hz, rfl⟩

/-- Inversion of `jdist2 = some`: every coordinate is finite. -/
theorem jdist2_some {x y z : ℚ} {a : JAtom} {d2 : ℚ}
    (h : jdist2 x y z a = some d2) :
    ∃ ax ay az, a.x = some ax ∧ a.y = some ay ∧ a.z = some az ∧
      d2 = (ax - x) * (ax - x) + (ay - y) * (ay - y) + (az - z) * (az - z) := by
  unfold jdist2 at h
  rcases hx : a.x with _ | ax <;> rcases hy : a.y with _ | ay <;>
    rcases hz : a.z with _ | az <;> rw [hx, hy, hz] at h <;>
    simp_all

/-- A finite-coordinate atom passing the distance test lies in a cell the
worker query enumerates. -/
theorem jCellKey_mem_neighborKeysW {x y z r cs : ℚ} {a : JAtom} {d2 : ℚ}
    (hcs : 0 < cs) (hr : 0 ≤ r) (hd : jdist2 x y z a = some d2)
    (h : d2 ≤ r * r) : jCellKey cs a ∈ neighborKeysW x y z r cs := by
  obtain ⟨ax, ay, az, hax, hay, haz, rfl⟩ := jdist2_some hd
  have bound : ∀ c q : ℚ, (c - q) * (c - q) ≤ r * r →
      cellIdx (q - r) cs ≤ cellIdx c cs ∧ cellIdx c cs ≤ cellIdx (q + r) cs := by
    intro c q hcq
    have hlo : q - r ≤ c := by nlinarith
    have hhi : c ≤ q + r := by nlinarith
    exact ⟨cellIdx_mono hcs hlo, cellIdx_mono hcs hhi⟩
  have hxx : (ax - x) * (ax - x) ≤ r * r := by
    have h1 := mul_self_nonneg (ay - y)
    have h2 := mul_self_nonneg (az - z)
    nlinarith
  have hyy : (ay - y) * (ay - y) ≤ r * r := by
    have h1 := mul_self_nonneg (ax - x)
    have h2 := mul_self_nonneg (az - z)
    nlinarith
  have hzz : (az - z) * (az - z) ≤ r * r := by
    have h1 := mul_self_nonneg (ax - x)
    have h2 := mul_self_nonneg (ay - y)
    nlinarith
  rw [mem_neighborKeysW]
  exact ⟨cellIdx ax cs, cellIdx ay cs, cellIdx az cs,
    by simp [jCellKey, hax, hay, haz],
    bound ax x hxx, bound ay y hyy, bound az z hzz⟩

/-- Membership in the worker's grid query, characterised (for a query
atom with finite coordinates; a NaN query coordinate makes both sides
trivial). -/
theorem mem_findNeighborsW {atoms : List JAtom} {cs r : ℚ}
    {qa : JAtom} {x y z : ℚ} {excl : Option Int}
    (hcs : 0 < cs) (hr : 0 ≤ r)
    (hqx : qa.x = some x) (hqy : qa.y = some y) (hqz : qa.z = some z)
    (p : JAtom × ℚ) :
    p ∈ findNeighborsW (buildSpatialGridW atoms cs) qa r excl ↔
      p ∈ bruteForceNeighborsW atoms x y z r excl := by
  unfold findNeighborsW bruteForceNeighborsW buildSpatialGridW
  rw [hqx, hqy, hqz]
  simp only [List.mem_filterMap, List.mem_flatMap]
  constructor
  · rintro ⟨b, ⟨k, hk, hb⟩, hf⟩
    rw [mapCell_foldl_mapPush] at hb
    simp only [mapCell, mapFind?, List.find?_nil, Option.map_none', Option.getD_none,
      List.nil_append, List.mem_filter, decide_eq_true_eq] at hb
    exact ⟨b, hb.1, hf⟩
  · rintro ⟨b, hb, hf⟩
    refine ⟨b, ⟨jCellKey cs b, ?_, ?_⟩, hf⟩
    · by_cases hse : jsStrictEq b.serial excl
      · rw [if_pos hse] at hf
        exact absurd hf (by simp)
      · rw [if_neg hse] at hf
        rcases hd : jdist2 x y z b with _ | d2
        · rw [hd] at hf
          exact absurd hf (by simp)
        · rw [hd] at hf
          dsimp only at hf
          by_cases hcond : d2 ≤ r * r ∧ 1 / 10000 < d2
          · exact jCellKey_mem_neighborKeysW hcs hr hd hcond.1
          · rw [if_neg hcond] at hf
            exact absurd hf (by simp)
    · rw [mapCell_foldl_mapPush]
      simp [mapCell, mapFind?, List.mem_filter, hb]

/-! ## Lemmas: sorting and re-indexing -/

theorem sorted_sortByKey (key : α → ℚ) (l : List α) :
    (sortByKey key l).Sorted (fun a b => key a ≤ key b) := by
  haveI : IsTotal α (fun a b => key a ≤ key b) :=
    ⟨fun a b => le_total (key a) (key b)⟩
  haveI : IsTrans α (fun a b => key a ≤ key b) :=
    ⟨fun _ _ _ hab hbc => le_trans hab hbc⟩
  exact List.sorted_insertionSort _ l

theorem mem_sortByKey {key : α → ℚ} {l : List α} {a : α} :
    a ∈ sortByKey key l ↔ a ∈ l :=
  (List.perm_insertionSort _ l).mem_iff

theorem assignIndices_length (set : α → Nat → α) (l : List α) (n : Nat) :
    (assignIndices set l n).length = l.length := by
  induction l generalizing n with
  | nil => rfl
  | cons r rs ih => simp [assignIndices, ih]

theorem assignIndices_map_get (set : α → Nat → α) (get : α → Nat)
    (hget : ∀ r n, get (set r n) = n) (l : List α) (n : Nat) :
    (assignIndices set l n).map get = List.range' n l.length := by
  induction l generalizing n with
  | nil => rfl
  | cons r rs ih => simp [assignIndices, List.range'_succ, hget, ih]

theorem mem_assignIndices {set : α → Nat → α} {l : List α} {n : Nat} {b : α}
    (h : b ∈ assignIndices set l n) : ∃ r ∈ l, ∃ m, b = set r m := by
  induction l generalizing n with
  | nil => simp [assignIndices] at h
  | cons r rs ih =>
    simp only [assignIndices, List.mem_cons] at h
    rcases h with rfl | h
    · exact ⟨r, List.mem_cons_self r rs, n, rfl⟩
    · obtain ⟨r', hr', m, rfl⟩ := ih h
      exact ⟨r', List.mem_cons_of_mem r hr', m, rfl⟩

theorem assignIndices_pairwise {P : α → α → Prop} {set : α → Nat → α}
    (hP : ∀ a b m n, P a b → P (set a m) (set b n)) :
    ∀ (l : List α) (n : Nat), l.Pairwise P → (assignIndices set l n).Pairwise P := by
  intro l
  induction l with
  | nil => intro n _; exact List.Pairwise.nil
  | cons r rs ih =>
    intro n h
    rw [List.pairwise_cons] at h
    refine List.Pairwise.cons ?_ (ih (n + 1) h.2)
    intro b hb
    obtain ⟨r', hr', m, rfl⟩ := mem_assignIndices hb
    exact hP r r' n m (h.1 r' hr')

/-- The `sort`-then-reindex tail shared by every classifier: the output is
sorted by the sort key and its `index` fields read `1, 2, …, N`. -/
theorem sortIndex_spec (key : α → ℚ) (set : α → Nat → α) (get : α → Nat)
    (hget : ∀ r n, get (set r n) = n) (hkey : ∀ r n, key (set r n) = key r)
    (l : List α) :
    (assignIndices set (sortByKey key l) 1).Sorted (fun a b => key a ≤ key b) ∧
      (assignIndices set (sortByKey key l) 1).map get =
        List.range' 1 (assignIndices set (sortByKey key l) 1).length := by
  constructor
  · refine assignIndices_pairwise ?_ _ 1 (sorted_sortByKey key l)
    intro a b m n hab
    rw [hkey, hkey]
    exact hab
  · rw [assignIndices_map_get set get hget, assignIndices_length]

/-! ## Claim theorems -/

/-- **C1.** For every list of atoms, every query point and every
(nonnegative) radius, the spatial-grid neighbor query — the library's
`findAtomsWithinRadius` / `findNeighbors` and the worker's
`findNeighbors` — returns exactly the set of atoms a brute-force scan
over the whole list accepts with squared Euclidean distance `≤ r²` and
`> 0.0001`, compared as a set (order-independent). -/
theorem grid_query_refines_bruteforce (atoms : List Atom) (cs x y z r : ℚ)
    (hcs : 0 < cs) (hr : 0 ≤ r) :
    (∀ a, a ∈ findAtomsWithinRadius (buildSpatialGrid atoms cs) x y z r ↔
      a ∈ bruteForceNeighbors atoms x y z r) ∧
    (∀ qa a, a ∈ findNeighbors (buildSpatialGrid atoms cs) qa r ↔
      a ∈ bruteForceNeighbors atoms qa.x qa.y qa.z r) ∧
    (∀ (jatoms : List JAtom) (qa : JAtom) (qx qy qz : ℚ) (excl : Option Int),
      qa.x = some qx → qa.y = some qy → qa.z = some qz →
      ∀ p, p ∈ findNeighborsW (buildSpatialGridW jatoms cs) qa r excl ↔
        p ∈ bruteForceNeighborsW jatoms qx qy qz r excl) := by
  refine ⟨fun a => mem_findAtomsWithinRadius hcs hr a, fun qa a => ?_, ?_⟩
  · show a ∈ findAtomsWithinRadius (buildSpatialGrid atoms cs) qa.x qa.y qa.z r ↔ _
    exact mem_findAtomsWithinRadius hcs hr a
  · intro jatoms qa qx qy qz excl hqx hqy hqz p
    exact mem_findNeighborsW hcs hr hqx hqy hqz p

/-- Witness for **C1** at a concrete input: grid membership of the single
in-range atom follows from the theorem applied to the brute-force side. -/
theorem grid_query_refines_bruteforce_witness :
    wLig1 ∈ findAtomsWithinRadius (buildSpatialGrid [wLig1] 5) 0 0 0 4 ∧
      (wJLig1, 9) ∈ findNeighborsW (buildSpatialGridW [wJLig1] 5) wAspOD1 4 (some 11) := by
  have h := grid_query_refines_bruteforce [wLig1] 5 0 0 0 4 (by norm_num) (by norm_num)
  have h2 := grid_query_refines_bruteforce ([] : List Atom) 5 0 0 0 4
    (by norm_num) (by norm_num)
  constructor
  · exact (h.1 wLig1).mpr
      (by norm_num [bruteForceNeighbors, withinRadius, dist2P, wLig1])
  · exact (h2.2.2 [wJLig1] wAspOD1 0 0 0 (some 11) rfl rfl rfl (wJLig1, 9)).mpr
      (by norm_num [bruteForceNeighborsW, jsStrictEq, jdist2, wJLig1, wAspOD1])

/-- **C2.** For every binding site and cutoff, the hydrophobic and
hydrogen-bond classifiers (library and worker versions) return lists
sorted ascending by their primary distance field, and the `index` fields
of the returned records form the contiguous sequence `1..N` in that
sorted order. -/
theorem classifier_output_sorted_and_indexed (site : BindingSite)
    (jsite : JBindingSite) (grid : SpatialGrid) (jgrid : SpatialGridW)
    (maxDist : ℚ) :
    ((findHydrophobicInteractions site grid maxDist).Sorted
        (fun a b => a.distance ≤ b.distance) ∧
      (findHydrophobicInteractions site grid maxDist).map (·.index) =
        List.range' 1 (findHydrophobicInteractions site grid maxDist).length) ∧
    ((findHydrophobicInteractionsByAtom site grid maxDist).Sorted
        (fun a b => a.distance ≤ b.distance) ∧
      (findHydrophobicInteractionsByAtom site grid maxDist).map (·.index) =
        List.range' 1 (findHydrophobicInteractionsByAtom site grid maxDist).length) ∧
    ((findHbondInteractions site grid maxDist).Sorted
        (fun a b => a.distanceDA ≤ b.distanceDA) ∧
      (findHbondInteractions site grid maxDist).map (·.index) =
        List.range' 1 (findHbondInteractions site grid maxDist).length) ∧
    ((findHydrophobicInteractionsW jsite jgrid maxDist).Sorted
        (fun a b => a.distance ≤ b.distance) ∧
      (findHydrophobicInteractionsW jsite jgrid maxDist).map (·.index) =
        List.range' 1 (findHydrophobicInteractionsW jsite jgrid maxDist).length) ∧
    ((findHbondInteractionsW jsite jgrid maxDist).Sorted
        (fun a b => a.distanceDA ≤ b.distanceDA) ∧
      (findHbondInteractionsW jsite jgrid maxDist).map (·.index) =
        List.range' 1 (findHbondInteractionsW jsite jgrid maxDist).length) := by
  refine ⟨?_, ?_, ?_, ?_, ?_⟩
  · exact sortIndex_spec (fun r : HydrophobicInteraction => r.distance)
      HydrophobicInteraction.setIndex (fun r : HydrophobicInteraction => r.index)
      (fun r n => rfl) (fun r n => rfl) _
  · exact sortIndex_spec (fun r : HydrophobicInteraction => r.distance)
      HydrophobicInteraction.setIndex (fun r : HydrophobicInteraction => r.index)
      (fun r n => rfl) (fun r n => rfl) _
  · exact sortIndex_spec (fun r : HbondInteraction => r.distanceDA)
      HbondInteraction.setIndex (fun r : HbondInteraction => r.index)
      (fun r n => rfl) (fun r n => rfl) _
  · exact sortIndex_spec (fun r : JHydrophobicInteraction => r.distance)
      JHydrophobicInteraction.setIndex (fun r : JHydrophobicInteraction => r.index)
      (fun r n => rfl) (fun r n => rfl) _
  · exact sortIndex_spec (fun r : JHbondInteraction => r.distanceDA)
      JHbondInteraction.setIndex (fun r : JHbondInteraction => r.index)
      (fun r n => rfl) (fun r n => rfl) _

/-- **C5, counterexample.** The claim's pairing of default values with
cutoff names fails on the code: the claim assigns π-stacking 4.1 Å,
halogen-bond 6.0 Å and water-bridge 4.0 Å, but `defaultParams` sets
π-stacking 6.0, halogen-bond 4.0 and water-bridge 4.1. -/
theorem defaultParams_claimed_values_false :
    ¬ (defaultParams.bindingSiteDistance = 7.5 ∧
       defaultParams.hydrophobicMaxDist = 4.0 ∧
       defaultParams.hbondMaxDist = 3.5 ∧
       defaultParams.saltBridgeMaxDist = 5.5 ∧
       defaultParams.piStackingMaxDist = 4.1 ∧
       defaultParams.piCationMaxDist = 6.0 ∧
       defaultParams.halogenBondMaxDist = 6.0 ∧
       defaultParams.waterBridgeMaxDist = 4.0) := by
  intro h
  have := h.2.2.2.2.1
  norm_num [defaultParams] at this

/-- **C5, amended.** The default `AnalysisParams` value assigns
binding-site distance 7.5 Å, hydrophobic max 4.0 Å, hydrogen-bond max
3.5 Å, salt-bridge max 5.5 Å, water-bridge max 4.1 Å, π-stacking max
6.0 Å, π-cation max 6.0 Å and halogen-bond max 4.0 Å. -/
theorem defaultParams_values :
    defaultParams.bindingSiteDistance = 7.5 ∧
    defaultParams.hydrophobicMaxDist = 4.0 ∧
    defaultParams.hbondMaxDist = 3.5 ∧
    defaultParams.saltBridgeMaxDist = 5.5 ∧
    defaultParams.waterBridgeMaxDist = 4.1 ∧
    defaultParams.piStackingMaxDist = 6.0 ∧
    defaultParams.piCationMaxDist = 6.0 ∧
    defaultParams.halogenBondMaxDist = 4.0 := by
  refine ⟨rfl, rfl, rfl, rfl, rfl, rfl, rfl, rfl⟩

/-- **C10.** Any protein atom whose trimmed, uppercased name is exactly
`"O"` is classified backbone-acceptor-only (`donor := false`,
`acceptor := true`, `sideChain := false`) regardless of its residue name;
in particular the `HOH:O` / `WAT:O` table entries — which mark water
oxygen as a donor — are unreachable, so `getProteinAtomProperties` never
classifies a water oxygen as a donor. -/
theorem backbone_O_shadows_water_rules :
    (∀ atom : Atom, jsToUpper (jsTrim atom.atomName) = "O" →
      getProteinAtomProperties atom = ⟨false, true, false⟩) ∧
    proteinDonorAcceptorRules ("HOH", "O") = some ⟨true, true, false⟩ ∧
    proteinDonorAcceptorRules ("WAT", "O") = some ⟨true, true, false⟩ := by
  refine ⟨?_, rfl, rfl⟩
  intro atom h
  unfold getProteinAtomProperties
  rw [h]
  simp

/-- Witness for **C10**: the water oxygen `wWaterO` is classified
acceptor-only. -/
theorem backbone_O_shadows_water_rules_witness :
    getProteinAtomProperties wWaterO = ⟨false, true, false⟩ :=
  backbone_O_shadows_water_rules.1 wWaterO (by decide)

/-! ## Lemmas: altLoc dedup -/

theorem mapFind?_mapSet [DecidableEq κ] (m : List (κ × α)) (k' k : κ) (v : α) :
    mapFind? (mapSet m k' v) k = if k' = k then some v else mapFind? m k := by
  induction m with
  | nil => by_cases h : k' = k <;> simp [mapSet, mapFind?, h]
  | cons p rest ih =>
    obtain ⟨k₀, v₀⟩ := p
    by_cases h0 : k₀ = k'
    · subst h0
      by_cases h : k₀ = k <;> simp [mapSet, mapFind?, h]
    · by_cases h : k₀ = k
      · subst h
        have h1 : ¬ k' = k₀ := fun hh => h0 hh.symm
        simp [mapSet, if_neg h0, mapFind?, h1]
      · simpa [mapSet, if_neg h0, mapFind?, h] using ih

/-- When the kept record is preferred, it is the first preferred record. -/
theorem firstPreferred_of_pref {l : List JAtom} {ex : JAtom}
    (h : firstPreferred l = some ex) (hp : isPreferredAltLoc ex) :
    l.find? isPreferredAltLoc = some ex := by
  unfold firstPreferred at h
  cases hf : l.find? isPreferredAltLoc with
  | some a => rw [hf] at h; injection h with h; rw [h]
  | none =>
    rw [hf] at h
    have hex : ex ∈ l := by
      cases l with
      | nil => simp at h
      | cons a t => injection h with h; rw [← h]; exact List.mem_cons_self a t
    exact absurd hp (by simpa using List.find?_eq_none.mp hf ex hex)

/-- When the kept record is not preferred, no record at the key is
preferred and the kept one is the first encountered. -/
theorem firstPreferred_of_npref {l : List JAtom} {ex : JAtom}
    (h : firstPreferred l = some ex) (hp : ¬ isPreferredAltLoc ex) :
    l.find? isPreferredAltLoc = none ∧ l.head? = some ex := by
  unfold firstPreferred at h
  cases hf : l.find? isPreferredAltLoc with
  | some a =>
    rw [hf] at h
    injection h with h
    exact absurd (h ▸ List.find?_some hf) (by simpa using hp)
  | none => rw [hf] at h; exact ⟨rfl, h⟩

/-- One dedup step preserves the per-key characterization. -/
theorem dedupStep_spec (m : List (PosKey × JAtom)) (processed : List JAtom)
    (a : JAtom)
    (ih : ∀ k, mapFind? m k =
      firstPreferred (processed.filter (fun b => decide (posKey b = k)))) :
    ∀ k, mapFind? (dedupStep m a) k =
      firstPreferred ((processed ++ [a]).filter (fun b => decide (posKey b = k))) := by
  intro k
  rw [List.filter_append]
  by_cases hk : posKey a = k
  · subst hk
    have hfa : [a].filter (fun b => decide (posKey b = posKey a)) = [a] := by simp
    rw [hfa]
    unfold dedupStep
    cases hex : mapFind? m (posKey a) with
    | none =>
      dsimp only
      have hold : processed.filter (fun b => decide (posKey b = posKey a)) = [] := by
        have hthis := (ih (posKey a)).symm
        rw [hex] at hthis
        unfold firstPreferred at hthis
        cases hf : (processed.filter (fun b => decide (posKey b = posKey a))).find?
            isPreferredAltLoc with
        | some b => rw [hf] at hthis; simp at hthis
        | none =>
          rw [hf] at hthis
          exact List.head?_eq_none_iff.mp hthis
      rw [hold, List.nil_append, mapFind?_mapSet, if_pos rfl]
      unfold firstPreferred
      cases hf : List.find? isPreferredAltLoc [a] with
      | some b =>
        have hb : b ∈ [a] := List.mem_of_find?_eq_some hf
        simp only [List.mem_singleton] at hb
        rw [hb]
      | none => rfl
    | some ex =>
      dsimp only
      have holdp : firstPreferred
          (processed.filter (fun b => decide (posKey b = posKey a))) = some ex := by
        rw [← ih (posKey a), hex]
      by_cases hpex : isPreferredAltLoc ex
      · rw [if_pos hpex, hex]
        have hfind := firstPreferred_of_pref holdp hpex
        unfold firstPreferred
        rw [List.find?_append, hfind]
        rfl
      · rw [if_neg hpex]
        obtain ⟨hnone, hhead⟩ := firstPreferred_of_npref holdp hpex
        by_cases hpa : isPreferredAltLoc a
        · rw [if_pos hpa, mapFind?_mapSet, if_pos rfl]
          unfold firstPreferred
          rw [List.find?_append, hnone]
          simp [List.find?_cons, hpa]
        · rw [if_neg hpa, hex]
          unfold firstPreferred
          rw [List.find?_append, hnone]
          have hfa2 : List.find? isPreferredAltLoc [a] = none := by
            rw [List.find?_eq_none]
            intro x hx
            simp only [List.mem_singleton] at hx
            rw [hx]
            simpa using hpa
          rw [hfa2]
          simp only [Option.none_or]
          rw [List.head?_append, hhead]
          rfl
  · have hfa : [a].filter (fun b => decide (posKey b = k)) = [] := by simp [hk]
    rw [hfa, List.append_nil]
    unfold dedupStep
    cases hex : mapFind? m (posKey a) with
    | none =>
      dsimp only
      rw [mapFind?_mapSet, if_neg hk]; exact ih k
    | some ex =>
      dsimp only
      by_cases hpex : isPreferredAltLoc ex
      · rw [if_pos hpex]; exact ih k
      · by_cases hpa : isPreferredAltLoc a
        · rw [if_neg hpex, if_pos hpa, mapFind?_mapSet, if_neg hk]; exact ih k
        · rw [if_neg hpex, if_neg hpa]; exact ih k

theorem dedup_fold_spec (atoms : List JAtom) :
    ∀ (m : List (PosKey × JAtom)) (processed : List JAtom),
      (∀ k, mapFind? m k =
        firstPreferred (processed.filter (fun b => decide (posKey b = k)))) →
      ∀ k, mapFind? (atoms.foldl dedupStep m) k =
        firstPreferred ((processed ++ atoms).filter (fun b => decide (posKey b = k))) := by
  induction atoms with
  | nil => intro m processed ih k; simpa using ih k
  | cons a rest ihr =>
    intro m processed ih k
    have step := dedupStep_spec m processed a ih
    have := ihr (dedupStep m a) (processed ++ [a]) step k
    simpa using this

/-- **C8.** The parser's altLoc dedup keeps, at every identity key,
the first record with an empty or `"A"` alternate-location code, and the
first-encountered record when no preferred candidate exists; in
particular, given one record with altLoc `"A"` and one with `"B"` at the
same key, the `"A"` record is kept regardless of order. -/
theorem altloc_dedup_keeps_preferred :
    (∀ (atoms : List JAtom) (k : PosKey),
      mapFind? (dedupAtoms atoms) k =
        firstPreferred (atoms.filter (fun b => decide (posKey b = k)))) ∧
    (∀ a b : JAtom, posKey a = posKey b → a.altLoc = "A" → b.altLoc = "B" →
      mapFind? (dedupAtoms [a, b]) (posKey a) = some a ∧
      mapFind? (dedupAtoms [b, a]) (posKey a) = some a) := by
  have main : ∀ (atoms : List JAtom) (k : PosKey),
      mapFind? (dedupAtoms atoms) k =
        firstPreferred (atoms.filter (fun b => decide (posKey b = k))) := by
    intro atoms k
    have := dedup_fold_spec atoms [] [] (fun k => by simp [mapFind?, firstPreferred]) k
    simpa [dedupAtoms] using this
  refine ⟨main, ?_⟩
  intro a b hkey ha hb
  have hpa : isPreferredAltLoc a := by simp [isPreferredAltLoc, ha]
  have hpb : ¬ (isPreferredAltLoc b = true) := by simp [isPreferredAltLoc, hb]
  constructor
  · rw [main [a, b] (posKey a)]
    simp [hkey, firstPreferred, List.find?_cons, hpa]
  · rw [main [b, a] (posKey a)]
    have hkb : posKey b = posKey a := hkey.symm
    simp [hkb, firstPreferred, List.find?_cons, hpa, hpb]

/-- Witness for **C8**: at the key of `wAltA`/`wAltB`, the `"A"` record
is kept in both orders. -/
theorem altloc_dedup_keeps_preferred_witness :
    mapFind? (dedupAtoms [wAltA, wAltB]) (posKey wAltA) = some wAltA ∧
      mapFind? (dedupAtoms [wAltB, wAltA]) (posKey wAltA) = some wAltA :=
  altloc_dedup_keeps_preferred.2 wAltA wAltB (by decide) (by decide) (by decide)

/-! ## Lemmas: evaluating queries on single-atom grids -/

theorem intRange_nodup (lo hi : Int) : (intRange lo hi).Nodup := by
  unfold intRange
  refine List.Nodup.map ?_ (List.nodup_range _)
  intro a b h
  dsimp only at h
  omega

theorem neighborKeys_nodup {x y z r cs : ℚ} : (neighborKeys x y z r cs).Nodup := by
  unfold neighborKeys
  rw [List.nodup_flatMap]
  refine ⟨fun ix _ => ?_, ?_⟩
  · rw [List.nodup_flatMap]
    refine ⟨fun iy _ => List.Nodup.map ?_ (intRange_nodup _ _), ?_⟩
    · intro a b h
      simpa using h
    · refine (intRange_nodup _ _).imp ?_
      intro iy iy' hne k hk hk'
      simp only [List.mem_map] at hk hk'
      obtain ⟨i1, _, rfl⟩ := hk
      obtain ⟨i2, _, he⟩ := hk'
      simp only [Prod.mk.injEq, true_and] at he
      exact hne he.1.symm
  · refine (intRange_nodup _ _).imp ?_
    intro ix ix' hne k hk hk'
    simp only [List.mem_flatMap, List.mem_map] at hk hk'
    obtain ⟨iy, _, i1, _, rfl⟩ := hk
    obtain ⟨iy', _, i2, _, he⟩ := hk'
    simp only [Prod.mk.injEq] at he
    exact hne he.1.symm

theorem neighborKeysW_nodup {x y z r cs : ℚ} : (neighborKeysW x y z r cs).Nodup := by
  unfold neighborKeysW
  rw [List.nodup_flatMap]
  refine ⟨fun ix _ => ?_, ?_⟩
  · rw [List.nodup_flatMap]
    refine ⟨fun iy _ => List.Nodup.map ?_ (intRange_nodup _ _), ?_⟩
    · intro a b h
      simpa using h
    · refine (intRange_nodup _ _).imp ?_
      intro iy iy' hne k hk hk'
      simp only [List.mem_map] at hk hk'
      obtain ⟨i1, _, rfl⟩ := hk
      obtain ⟨i2, _, he⟩ := hk'
      simp only [Prod.mk.injEq, Option.some.injEq, true_and] at he
      exact hne he.1.symm
  · refine (intRange_nodup _ _).imp ?_
    intro ix ix' hne k hk hk'
    simp only [List.mem_flatMap, List.mem_map] at hk hk'
    obtain ⟨iy, _, i1, _, rfl⟩ := hk
    obtain ⟨iy', _, i2, _, he⟩ := hk'
    simp only [Prod.mk.injEq, Option.some.injEq] at he
    exact hne he.1.symm

theorem flatMap_ite_singleton [DecidableEq κ] {keys : List κ} (hk : keys.Nodup)
    (c : κ) (l : List α) :
    (keys.flatMap (fun k => if c = k then l else [])) =
      if c ∈ keys then l else [] := by
  induction keys with
  | nil => simp
  | cons k ks ih =>
    rw [List.nodup_cons] at hk
    simp only [List.flatMap_cons]
    by_cases h : c = k
    · subst h
      rw [if_pos rfl, if_pos (List.mem_cons_self c ks), ih hk.2, if_neg hk.1,
        List.append_nil]
    · rw [if_neg h, List.nil_append, ih hk.2]
      by_cases hc : c ∈ ks
      · rw [if_pos hc, if_pos (List.mem_cons_of_mem k hc)]
      · rw [if_neg hc, if_neg (by simp [List.mem_cons, h, hc])]

/-- A query on a one-atom grid returns that atom exactly when the
brute-force acceptance test passes. -/
theorem findAtomsWithinRadius_singleton (b : Atom) {cs x y z r : ℚ}
    (hcs : 0 < cs) (hr : 0 ≤ r) :
    findAtomsWithinRadius (buildSpatialGrid [b] cs) x y z r =
      if withinRadius x y z r b then [b] else [] := by
  unfold findAtomsWithinRadius buildSpatialGrid
  have hcell : ∀ k, mapCell ([b].foldl (fun m a => mapPush m (cellKey cs a) a) []) k =
      if cellKey cs b = k then [b] else [] := by
    intro k
    rw [mapCell_foldl_mapPush]
    by_cases h : cellKey cs b = k <;>
      simp [mapCell, mapFind?, h]
  simp only [hcell]
  rw [flatMap_ite_singleton neighborKeys_nodup]
  by_cases hw : withinRadius x y z r b
  · have hin : cellKey cs b ∈ neighborKeys x y z r cs := by
      have hd : dist2P x y z b ≤ r * r :=
        of_decide_eq_true ((Bool.and_eq_true _ _).mp hw).1
      exact cellKey_mem_neighborKeys hcs hr hd
    rw [if_pos hin, if_pos hw]
    simp [List.filter, hw]
  · by_cases hin : cellKey cs b ∈ neighborKeys x y z r cs
    · rw [if_pos hin, if_neg hw]
      simp [List.filter, hw]
    · rw [if_neg hin, if_neg hw]
      rfl

/-- A worker query on a one-atom grid agrees with the brute-force scan
over the one-atom list. -/
theorem findNeighborsW_singleton (b : JAtom) {cs r : ℚ} {qa : JAtom}
    {x y z : ℚ} (hcs : 0 < cs) (hr : 0 ≤ r)
    (hqx : qa.x = some x) (hqy : qa.y = some y) (hqz : qa.z = some z)
    (excl : Option Int) :
    findNeighborsW (buildSpatialGridW [b] cs) qa r excl =
      bruteForceNeighborsW [b] x y z r excl := by
  unfold findNeighborsW buildSpatialGridW bruteForceNeighborsW
  rw [hqx, hqy, hqz]
  have hcell : ∀ k, mapCell ([b].foldl (fun m a => mapPush m (jCellKey cs a) a) []) k =
      if jCellKey cs b = k then [b] else [] := by
    intro k
    rw [mapCell_foldl_mapPush]
    by_cases h : jCellKey cs b = k <;>
      simp [mapCell, mapFind?, h]
  simp only [hcell]
  rw [flatMap_ite_singleton neighborKeysW_nodup]
  by_cases hin : jCellKey cs b ∈ neighborKeysW x y z r cs
  · rw [if_pos hin]
  · rw [if_neg hin]
    simp only [List.filterMap_nil, List.filterMap_cons]
    by_cases hse : jsStrictEq b.serial excl
    · rw [if_pos hse]
    · rw [if_neg hse]
      rcases hd : jdist2 x y z b with _ | d2
      · rfl
      · dsimp only
        by_cases hcond : d2 ≤ r * r ∧ 1 / 10000 < d2
        · exact absurd (jCellKey_mem_neighborKeysW hcs hr hd hcond.1) hin
        · rw [if_neg hcond]

/-! ## Lemmas: binding-site detection skips water -/

theorem detectLoop_no_water (grid : SpatialGrid) (d : ℚ) :
    ∀ (groups : List ((String × Int × String) × List Atom)) (siteId : Nat),
      ∀ site ∈ detectLoop grid d groups siteId, site.ligand.type ≠ .WATER := by
  intro groups
  induction groups with
  | nil => intro siteId site h; simp [detectLoop] at h
  | cons g rest ih =>
    intro siteId site h
    obtain ⟨key, atoms⟩ := g
    simp only [detectLoop] at h
    by_cases hw : getLigandType key.2.2 = .WATER
    · rw [if_pos (by simpa using hw)] at h
      exact ih siteId site h
    · rw [if_neg (by simpa using hw)] at h
      by_cases hp : (extractResidues (findPocketAtoms
          { siteId := siteId, chain := key.1, resi := key.2.1, resn := key.2.2
            atoms := atoms, type := getLigandType key.2.2 } grid d)).length > 0
      · rw [if_pos hp] at h
        rcases List.mem_cons.mp h with rfl | h2
        · simpa using hw
        · exact ih (siteId + 1) site h2
      · rw [if_neg hp] at h
        exact ih siteId site h

theorem detectLoopW_no_water (grid : SpatialGridW) (d : ℚ) :
    ∀ (groups : List ((String × Option Int × String) × List JAtom)) (siteId : Nat),
      ∀ site ∈ detectLoopW grid d groups siteId, site.ligand.type ≠ .WATER := by
  intro groups
  induction groups with
  | nil => intro siteId site h; simp [detectLoopW] at h
  | cons g rest ih =>
    intro siteId site h
    obtain ⟨key, atoms⟩ := g
    simp only [detectLoopW] at h
    by_cases hw : (if jsToUpper key.2.2 = "HOH" ∨ jsToUpper key.2.2 = "WAT"
        then LigandType.WATER else LigandType.SMALLMOLECULE) = LigandType.WATER
    · rw [if_pos (by simpa using hw)] at h
      exact ih siteId site h
    · rw [if_neg (by simpa using hw)] at h
      set pres := List.insertionSort jResidueLE
        ((atoms.foldl (fun s la => (findNeighborsW grid la d la.serial).foldl
            (fun s' p => setAdd s' p.1) s) []).foldl
          (fun m a => setAdd m (JResidueRef.mk a.chain a.resi a.resn)) []) with hpres
      by_cases hp : pres.length > 0
      · rw [if_pos hp] at h
        rcases List.mem_cons.mp h with rfl | h2
        · simpa using hw
        · exact ih (siteId + 1) site h2
      · rw [if_neg hp] at h
        exact ih siteId site h

/-- **C9.** No atom with a water residue name (`HOH`/`WAT`/`DOD`) ever
appears in the parser's ligand-atom list, and no binding site returned by
either binding-site detector has a water-type ligand. -/
theorem no_water_ligands :
    (∀ (content : String) (a : JAtom), a ∈ (parsePDB content).ligandAtoms →
      jsToUpper a.resn ≠ "HOH" ∧ jsToUpper a.resn ≠ "WAT" ∧
        jsToUpper a.resn ≠ "DOD") ∧
    (∀ (pAtoms lAtoms : List Atom) (grid : SpatialGrid) (d : ℚ),
      ∀ site ∈ detectBindingSites pAtoms lAtoms grid d,
        site.ligand.type ≠ .WATER) ∧
    (∀ (pAtoms lAtoms : List JAtom) (grid : SpatialGridW) (d : ℚ),
      ∀ site ∈ detectBindingSitesW pAtoms lAtoms grid d,
        site.ligand.type ≠ .WATER) := by
  refine ⟨?_, ?_, ?_⟩
  · intro content a ha
    simp only [parsePDB, List.mem_filter] at ha
    have hlig : isLigandAtom a := ha.2
    unfold isLigandAtom at hlig
    have hnot : ¬ (jsToUpper a.resn ∈ EXCLUDED_RESIDUES) := by
      rcases Bool.and_eq_true _ _ |>.mp hlig with ⟨_, hn⟩
      simpa using hn
    refine ⟨?_, ?_, ?_⟩ <;>
      · intro he
        exact hnot (by rw [he]; decide)
  · intro pAtoms lAtoms grid d site hs
    exact detectLoop_no_water grid d _ 1 site hs
  · intro pAtoms lAtoms grid d site hs
    exact detectLoopW_no_water grid d _ 1 site hs

set_option maxHeartbeats 4000000 in
/-- Witness for **C9**: a parsed `LIG` heteroatom is in the ligand list
and is not water-named, and the binding sites detected around concrete
one-atom pockets are not water-typed. -/
theorem no_water_ligands_witness :
    (jsToUpper wParsedLig.resn ≠ "HOH" ∧ jsToUpper wParsedLig.resn ≠ "WAT" ∧
      jsToUpper wParsedLig.resn ≠ "DOD") ∧
    ({ siteId := 1
       ligand := { siteId := 1, chain := "A", resi := 10, resn := "LIG"
                   atoms := [wLig1], type := .SMALLMOLECULE }
       pocketResidues := [⟨"A", 1, "ALA"⟩]
       pocketAtoms := [wProteinCB] } : BindingSite).ligand.type ≠ .WATER ∧
    ({ siteId := 1
       ligand := { siteId := 1, chain := "A", resi := some 10, resn := "LIG"
                   atoms := [wJLig1], type := .SMALLMOLECULE }
       pocketResidues := [⟨"A", some 1, "ASP"⟩]
       pocketAtoms := [wAspOD1] } : JBindingSite).ligand.type ≠ .WATER := by
  refine ⟨no_water_ligands.1 wLigandLine wParsedLig ?_,
    no_water_ligands.2.1 [wProteinCB] [wLig1] wGrid 4 _ ?_,
    no_water_ligands.2.2 [wAspOD1] [wJLig1] wJGrid 4 _ ?_⟩
  · have hp : parsePDB wLigandLine =
        { proteinAtoms := [], ligandAtoms := [wParsedLig], allAtoms := [wParsedLig] } := by
      norm_num +decide [parsePDB, jsSplitLines, splitCharsAux, parseAtomLine, jsSubstring,
        jsTrim, jsToUpper, jsParseInt, jsParseFloat, natPrefix, digitsVal, digitVal,
        floatMantissa, floatExponent, elementScan, parseElementFromAtomName, jsCapitalize,
        List.dropWhile_cons, List.takeWhile_cons, List.filterMap_cons, List.filterMap_nil,
        dedupAtoms, dedupStep, mapFind?, mapSet,
        posKey, isPreferredAltLoc, isLigandAtom, EXCLUDED_RESIDUES, wParsedLig, wLigandLine]
    rw [hp]
    exact List.mem_singleton.mpr rfl
  · have hd : detectBindingSites [wProteinCB] [wLig1] wGrid 4 =
        [{ siteId := 1
           ligand := { siteId := 1, chain := "A", resi := 10, resn := "LIG"
                       atoms := [wLig1], type := .SMALLMOLECULE }
           pocketResidues := [⟨"A", 1, "ALA"⟩]
           pocketAtoms := [wProteinCB] }] := by
      have h1 : findNeighbors wGrid wLig1 4 = [wProteinCB] := by
        show findAtomsWithinRadius (buildSpatialGrid [wProteinCB] 5)
          wLig1.x wLig1.y wLig1.z 4 = [wProteinCB]
        rw [findAtomsWithinRadius_singleton wProteinCB (by norm_num) (by norm_num)]
        norm_num [withinRadius, dist2P, wLig1, wProteinCB]
      simp only [wLig1, wProteinCB] at h1
      norm_num +decide [detectBindingSites, groupLigands, mapPush, detectLoop,
        getLigandType, jsToUpper, findPocketAtoms, h1, setAdd, extractResidues,
        List.insertionSort, wLig1, wProteinCB]
    rw [hd]
    exact List.mem_singleton.mpr rfl
  · have hd : detectBindingSitesW [wAspOD1] [wJLig1] wJGrid 4 =
        [{ siteId := 1
           ligand := { siteId := 1, chain := "A", resi := some 10, resn := "LIG"
                       atoms := [wJLig1], type := .SMALLMOLECULE }
           pocketResidues := [⟨"A", some 1, "ASP"⟩]
           pocketAtoms := [wAspOD1] }] := by
      have h1 : findNeighborsW wJGrid wJLig1 4 (some 101) = [(wAspOD1, 9)] := by
        show findNeighborsW (buildSpatialGridW [wAspOD1] 5) wJLig1 4 (some 101) =
          [(wAspOD1, 9)]
        rw [findNeighborsW_singleton wAspOD1 (by norm_num) (by norm_num) rfl rfl rfl
          (some 101)]
        norm_num +decide [bruteForceNeighborsW, jsStrictEq, jdist2, wAspOD1,
          List.filterMap_cons, List.filterMap_nil]
      simp only [wJLig1, wAspOD1] at h1
      norm_num +decide [detectBindingSitesW, mapPush, detectLoopW, jsToUpper,
        h1, setAdd, List.insertionSort, wJLig1, wAspOD1]
    rw [hd]
    exact List.mem_singleton.mpr rfl

/-- **C3.** When the parse yields zero ligand atoms, `analyzePDB`
terminates in the error state with the "No ligands found in PDB file"
message, after emitting only the single `parsing` progress event — in
particular no `building-grid` event is ever emitted (no spatial index is
built) before that error. -/
theorem no_ligands_aborts_before_grid (content : String) (filename : String)
    (params : AnalysisParams) (startTime endTime : Int)
    (h : (parsePDB content).ligandAtoms = []) :
    (analyzePDB content filename params startTime endTime).2 =
      .error "No ligands found in PDB file" ∧
    (analyzePDB content filename params startTime endTime).1 =
      [ProgressEvent.mk "parsing" 10 "Parsing PDB file..." none none] ∧
    ∀ e ∈ (analyzePDB content filename params startTime endTime).1,
      e.status ≠ "building-grid" := by
  have hempty : (parsePDB content).ligandAtoms.isEmpty = true := by
    rw [h]; rfl
  refine ⟨?_, ?_, ?_⟩ <;>
    (simp only [analyzePDB, hempty, if_true]; try simp +decide)

set_option maxHeartbeats 4000000 in
/-- Witness for **C3**: a file with a single protein `ATOM` record parses
to zero ligand atoms, and the analysis errors out. -/
theorem no_ligands_aborts_before_grid_witness :
    (analyzePDB wProteinLine "f" defaultParams 0 0).2 =
      .error "No ligands found in PDB file" :=
  (no_ligands_aborts_before_grid wProteinLine "f" defaultParams 0 0 (by
    norm_num +decide [parsePDB, jsSplitLines, splitCharsAux, parseAtomLine, jsSubstring,
      jsTrim, jsToUpper, jsParseInt, jsParseFloat, natPrefix, digitsVal, digitVal,
      floatMantissa, floatExponent, elementScan, parseElementFromAtomName, jsCapitalize,
      List.dropWhile_cons, List.takeWhile_cons, List.filterMap_cons, List.filterMap_nil,
      dedupAtoms, dedupStep, mapFind?, mapSet,
      posKey, isPreferredAltLoc, isLigandAtom, EXCLUDED_RESIDUES, wProteinLine])).1

set_option maxHeartbeats 4000000 in
/-- **C4 (code bug).** A well-formed `HETATM` record with non-numeric
text in its x-coordinate columns is NOT dropped: JavaScript
`parseFloat` returns `NaN` instead of throwing, so the catch branch of
`parseAtomLine` never runs and the atom — with a NaN coordinate — appears
in the parser's ligand output, contrary to the documented intent of the
catch-and-warn handler. -/
theorem malformed_numeric_field_keeps_atom :
    parseAtomLine wBadXLine = some wBadXAtom ∧ wBadXAtom.x = none ∧
      wBadXAtom ∈ (parsePDB wBadXLine).ligandAtoms := by
  refine ⟨?_, rfl, ?_⟩
  · norm_num +decide [parseAtomLine, jsSubstring, jsTrim, jsToUpper, jsParseInt,
      jsParseFloat, natPrefix, digitsVal, digitVal, floatMantissa, floatExponent,
      elementScan, parseElementFromAtomName, jsCapitalize, List.dropWhile_cons,
      List.takeWhile_cons, wBadXAtom, wBadXLine]
  · have hp : parsePDB wBadXLine =
        { proteinAtoms := [], ligandAtoms := [wBadXAtom], allAtoms := [wBadXAtom] } := by
      norm_num +decide [parsePDB, jsSplitLines, splitCharsAux, parseAtomLine, jsSubstring,
        jsTrim, jsToUpper, jsParseInt, jsParseFloat, natPrefix, digitsVal, digitVal,
        floatMantissa, floatExponent, elementScan, parseElementFromAtomName, jsCapitalize,
        List.dropWhile_cons, List.takeWhile_cons, List.filterMap_cons, List.filterMap_nil,
        dedupAtoms, dedupStep, mapFind?, mapSet,
        posKey, isPreferredAltLoc, isLigandAtom, EXCLUDED_RESIDUES, wBadXAtom, wBadXLine]
    rw [hp]
    exact List.mem_singleton.mpr rfl

/-! ## Lemmas: by-atom hydrophobic dedup -/

theorem hydroKeyToRecKey_injective : Function.Injective hydroKeyToRecKey := by
  rintro ⟨c1, i1, n1, s1⟩ ⟨c2, i2, n2, s2⟩ h
  simp only [hydroKeyToRecKey, Prod.mk.injEq] at h
  obtain ⟨⟨h1, h2⟩, h3, h4⟩ := h
  simp_all

theorem assignIndices_map_eq (set : α → Nat → α) (f : α → β)
    (hf : ∀ r n, f (set r n) = f r) :
    ∀ (l : List α) (n : Nat), (assignIndices set l n).map f = l.map f := by
  intro l
  induction l with
  | nil => intro n; rfl
  | cons r rs ih => intro n; simp [assignIndices, hf, ih]

theorem sortByKey_map_perm (key : α → ℚ) (f : α → β) (l : List α) :
    ((sortByKey key l).map f).Perm (l.map f) :=
  (List.perm_insertionSort _ l).map f

/-- Inner-loop invariant of the by-atom hydrophobic classifier: the
accumulated record keys are duplicate-free, track the `seen` set exactly,
and `seen` grows by precisely the keys of qualifying neighbor pairs. -/
theorem hydroByAtomInner_spec (la : Atom) (maxDist : ℚ) :
    ∀ (pas : List Atom) (seen : List HydroKey) (acc : List HydrophobicInteraction),
      ((acc.map hydroRecKey).Nodup ∧
        (∀ k : HydroKey, k ∈ seen ↔ hydroKeyToRecKey k ∈ acc.map hydroRecKey)) →
      ((((hydroByAtomInner la maxDist pas (seen, acc)).2.map hydroRecKey).Nodup ∧
        (∀ k : HydroKey, k ∈ (hydroByAtomInner la maxDist pas (seen, acc)).1 ↔
          hydroKeyToRecKey k ∈
            (hydroByAtomInner la maxDist pas (seen, acc)).2.map hydroRecKey)) ∧
       (∀ k : HydroKey, k ∈ (hydroByAtomInner la maxDist pas (seen, acc)).1 ↔
          (k ∈ seen ∨ ∃ pa ∈ pas, isHydrophobicResidue pa.resn = true ∧
            sqrtLe (dist2 la pa) maxDist = true ∧
            k = (pa.chain, pa.resi, pa.resn, la.serial)))) := by
  intro pas
  induction pas with
  | nil =>
    intro seen acc hinv
    exact ⟨hinv, fun k => by simp [hydroByAtomInner]⟩
  | cons pa rest ih =>
    intro seen acc hinv
    by_cases hhyd : isHydrophobicResidue pa.resn
    · by_cases hle : sqrtLe (dist2 la pa) maxDist
      · by_cases hseen : (pa.chain, pa.resi, pa.resn, la.serial) ∈ seen
        · have heq : hydroByAtomInner la maxDist (pa :: rest) (seen, acc) =
              hydroByAtomInner la maxDist rest (seen, acc) := by
            simp only [hydroByAtomInner, hhyd, hle, if_true, if_pos hseen]
          rw [heq]
          obtain ⟨hI, hC⟩ := ih seen acc hinv
          refine ⟨hI, fun k => (hC k).trans ?_⟩
          constructor
          · rintro (hk | ⟨pb, hpb, hc⟩)
            · exact Or.inl hk
            · exact Or.inr ⟨pb, List.mem_cons_of_mem pa hpb, hc⟩
          · rintro (hk | ⟨pb, hpb, h1, h2, h3⟩)
            · exact Or.inl hk
            · rcases List.mem_cons.mp hpb with rfl | hpb'
              · exact Or.inl (h3 ▸ hseen)
              · exact Or.inr ⟨pb, hpb', h1, h2, h3⟩
        · have heq : hydroByAtomInner la maxDist (pa :: rest) (seen, acc) =
              hydroByAtomInner la maxDist rest
                ((pa.chain, pa.resi, pa.resn, la.serial) :: seen,
                 acc ++ [mkHydrophobicRec la pa (dist2 la pa) (acc.length + 1)]) := by
            simp only [hydroByAtomInner, hhyd, hle, if_true, if_neg hseen]
          rw [heq]
          obtain ⟨hnd, hiff⟩ := hinv
          have hknotin : hydroKeyToRecKey (pa.chain, pa.resi, pa.resn, la.serial) ∉
              acc.map hydroRecKey := fun hmem => hseen ((hiff _).mpr hmem)
          have hinv' : (((acc ++ [mkHydrophobicRec la pa (dist2 la pa)
                (acc.length + 1)]).map hydroRecKey).Nodup ∧
              (∀ k : HydroKey,
                k ∈ (pa.chain, pa.resi, pa.resn, la.serial) :: seen ↔
                hydroKeyToRecKey k ∈ (acc ++ [mkHydrophobicRec la pa (dist2 la pa)
                  (acc.length + 1)]).map hydroRecKey)) := by
            constructor
            · rw [List.map_append, List.nodup_append]
              refine ⟨hnd, List.nodup_singleton _, ?_⟩
              intro K hK hK'
              simp only [List.map_cons, List.map_nil, List.mem_singleton] at hK'
              subst hK'
              exact hknotin hK
            · intro k
              rw [List.map_append, List.mem_append]
              simp only [List.mem_cons, List.map_cons, List.map_nil,
                List.mem_singleton, List.not_mem_nil, or_false]
              constructor
              · rintro (rfl | hk)
                · exact Or.inr rfl
                · exact Or.inl ((hiff k).mp hk)
              · rintro (hk | hk)
                · exact Or.inr ((hiff k).mpr hk)
                · exact Or.inl (hydroKeyToRecKey_injective hk)
          obtain ⟨hI, hC⟩ := ih _ _ hinv'
          refine ⟨hI, fun k => (hC k).trans ?_⟩
          constructor
          · rintro (hk | ⟨pb, hpb, hc⟩)
            · rcases List.mem_cons.mp hk with rfl | hk'
              · exact Or.inr ⟨pa, List.mem_cons_self pa rest, hhyd, hle, rfl⟩
              · exact Or.inl hk'
            · exact Or.inr ⟨pb, List.mem_cons_of_mem pa hpb, hc⟩
          · rintro (hk | ⟨pb, hpb, h1, h2, h3⟩)
            · exact Or.inl (List.mem_cons_of_mem _ hk)
            · rcases List.mem_cons.mp hpb with rfl | hpb'
              · exact Or.inl (h3 ▸ List.mem_cons_self _ _)
              · exact Or.inr ⟨pb, hpb', h1, h2, h3⟩
      · have heq : hydroByAtomInner la maxDist (pa :: rest) (seen, acc) =
            hydroByAtomInner la maxDist rest (seen, acc) := by
          simp only [hydroByAtomInner, hhyd, if_true]
          rw [if_neg hle]
        rw [heq]
        obtain ⟨hI, hC⟩ := ih seen acc hinv
        refine ⟨hI, fun k => (hC k).trans ?_⟩
        constructor
        · rintro (hk | ⟨pb, hpb, hc⟩)
          · exact Or.inl hk
          · exact Or.inr ⟨pb, List.mem_cons_of_mem pa hpb, hc⟩
        · rintro (hk | ⟨pb, hpb, h1, h2, h3⟩)
          · exact Or.inl hk
          · rcases List.mem_cons.mp hpb with rfl | hpb'
            · exact absurd h2 hle
            · exact Or.inr ⟨pb, hpb', h1, h2, h3⟩
    · have heq : hydroByAtomInner la maxDist (pa :: rest) (seen, acc) =
          hydroByAtomInner la maxDist rest (seen, acc) := by
        simp only [hydroByAtomInner]
        rw [if_neg hhyd]
      rw [heq]
      obtain ⟨hI, hC⟩ := ih seen acc hinv
      refine ⟨hI, fun k => (hC k).trans ?_⟩
      constructor
      · rintro (hk | ⟨pb, hpb, hc⟩)
        · exact Or.inl hk
        · exact Or.inr ⟨pb, List.mem_cons_of_mem pa hpb, hc⟩
      · rintro (hk | ⟨pb, hpb, h1, h2, h3⟩)
        · exact Or.inl hk
        · rcases List.mem_cons.mp hpb with rfl | hpb'
          · exact absurd h1 hhyd
          · exact Or.inr ⟨pb, hpb', h1, h2, h3⟩

/-- Outer-loop invariant of the by-atom hydrophobic classifier. -/
theorem hydroByAtomOuter_spec (grid : SpatialGrid) (maxDist : ℚ) :
    ∀ (atoms : List Atom) (seen : List HydroKey) (acc : List HydrophobicInteraction),
      ((acc.map hydroRecKey).Nodup ∧
        (∀ k : HydroKey, k ∈ seen ↔ hydroKeyToRecKey k ∈ acc.map hydroRecKey)) →
      ((((hydroByAtomOuter grid maxDist atoms (seen, acc)).2.map hydroRecKey).Nodup ∧
        (∀ k : HydroKey, k ∈ (hydroByAtomOuter grid maxDist atoms (seen, acc)).1 ↔
          hydroKeyToRecKey k ∈
            (hydroByAtomOuter grid maxDist atoms (seen, acc)).2.map hydroRecKey)) ∧
       (∀ k : HydroKey, k ∈ (hydroByAtomOuter grid maxDist atoms (seen, acc)).1 ↔
          (k ∈ seen ∨ ∃ la ∈ atoms, ∃ pa ∈ findNeighbors grid la maxDist,
            isHydrophobicResidue pa.resn = true ∧
            sqrtLe (dist2 la pa) maxDist = true ∧
            k = (pa.chain, pa.resi, pa.resn, la.serial)))) := by
  intro atoms
  induction atoms with
  | nil =>
    intro seen acc hinv
    exact ⟨hinv, fun k => by simp [hydroByAtomOuter]⟩
  | cons la rest ih =>
    intro seen acc hinv
    have heq : hydroByAtomOuter grid maxDist (la :: rest) (seen, acc) =
        hydroByAtomOuter grid maxDist rest
          (hydroByAtomInner la maxDist (findNeighbors grid la maxDist) (seen, acc)) := rfl
    rw [heq]
    obtain ⟨hI1, hC1⟩ := hydroByAtomInner_spec la maxDist
      (findNeighbors grid la maxDist) seen acc hinv
    obtain ⟨hI2, hC2⟩ := ih _ _ (by
      obtain ⟨a, b⟩ := hI1
      exact ⟨a, b⟩)
    refine ⟨hI2, fun k => (hC2 k).trans ?_⟩
    rw [hC1 k]
    constructor
    · rintro ((hk | ⟨pa, hpa, hc⟩) | ⟨lb, hlb, hrest⟩)
      · exact Or.inl hk
      · exact Or.inr ⟨la, List.mem_cons_self la rest, pa, hpa, hc⟩
      · exact Or.inr ⟨lb, List.mem_cons_of_mem la hlb, hrest⟩
    · rintro (hk | ⟨lb, hlb, hrest⟩)
      · exact Or.inl (Or.inl hk)
      · rcases List.mem_cons.mp hlb with rfl | hlb'
        · exact Or.inl (Or.inr hrest)
        · exact Or.inr ⟨lb, hlb', hrest⟩

/-- **C6, counterexample.** The residue-level classifier
`findHydrophobicInteractions` reports at most one record per residue: on
a binding site whose ligand has two distinct-serial atoms, each within
the cutoff of the same hydrophobic (ALA) residue, it returns a single
record — the claim demands two records for that residue. -/
theorem hydrophobic_residue_level_single_record :
    wLig1.serial ≠ wLig2.serial ∧
    isHydrophobicResidue wProteinCB.resn = true ∧
    wProteinCB ∈ findNeighbors wGrid wLig1 4 ∧
    sqrtLe (dist2 wLig1 wProteinCB) 4 = true ∧
    wProteinCB ∈ findNeighbors wGrid wLig2 4 ∧
    sqrtLe (dist2 wLig2 wProteinCB) 4 = true ∧
    (findHydrophobicInteractions wSite wGrid 4).length = 1 := by
  have h1 : findNeighbors wGrid wLig1 4 = [wProteinCB] := by
    show findAtomsWithinRadius (buildSpatialGrid [wProteinCB] 5)
      wLig1.x wLig1.y wLig1.z 4 = [wProteinCB]
    rw [findAtomsWithinRadius_singleton wProteinCB (by norm_num) (by norm_num)]
    norm_num [withinRadius, dist2P, wLig1, wProteinCB]
  have h2 : findNeighbors wGrid wLig2 4 = [wProteinCB] := by
    show findAtomsWithinRadius (buildSpatialGrid [wProteinCB] 5)
      wLig2.x wLig2.y wLig2.z 4 = [wProteinCB]
    rw [findAtomsWithinRadius_singleton wProteinCB (by norm_num) (by norm_num)]
    norm_num [withinRadius, dist2P, wLig2, wProteinCB]
  refine ⟨by decide, by decide, ?_, ?_, ?_, ?_, ?_⟩
  · rw [h1]; exact List.mem_singleton.mpr rfl
  · norm_num [sqrtLe, dist2, wLig1, wProteinCB]
  · rw [h2]; exact List.mem_singleton.mpr rfl
  · norm_num [sqrtLe, dist2, wLig2, wProteinCB]
  · simp only [wLig1, wLig2, wProteinCB] at h1 h2
    norm_num +decide [findHydrophobicInteractions, mapPush, mapCell, mapFind?,
      isHydrophobicResidue, jsToUpper, HYDROPHOBIC_RESIDUES, closestPair, sqrtLe,
      dist2, mkHydrophobicRec, sortByKey, List.insertionSort, List.orderedInsert,
      assignIndices, HydrophobicInteraction.setIndex, h1, h2,
      List.filterMap_cons, List.filterMap_nil, List.foldl_cons, List.foldl_nil,
      wSite, wLigand, wLig1, wLig2, wProteinCB]

/-- **C6, amended.** The by-atom hydrophobic classifier
(`findHydrophobicInteractionsByAtom`, whose algorithm the worker's
executed classifier shares) deduplicates exactly by the pair
(protein residue identity, ligand atom serial): its records carry
pairwise-distinct such pairs, a pair occurs exactly when some qualifying
contact produces it, and two distinct-serial ligand atoms within the
cutoff of the same hydrophobic residue yield two records for that
residue.  (The residue-level `findHydrophobicInteractions` instead
reports at most one record per residue.) -/
theorem hydrophobic_byatom_dedup_exact (site : BindingSite) (grid : SpatialGrid)
    (maxDist : ℚ) :
    ((findHydrophobicInteractionsByAtom site grid maxDist).map hydroRecKey).Nodup ∧
    (∀ (c : String) (i : Int) (n : String) (s : Int),
      ((i, c), n, s) ∈
          (findHydrophobicInteractionsByAtom site grid maxDist).map hydroRecKey ↔
        ∃ la ∈ site.ligand.atoms, la.serial = s ∧
          ∃ pa ∈ findNeighbors grid la maxDist, isHydrophobicResidue pa.resn = true ∧
            sqrtLe (dist2 la pa) maxDist = true ∧
            pa.chain = c ∧ pa.resi = i ∧ pa.resn = n) ∧
    (∀ (c : String) (i : Int) (n : String) (s₁ s₂ : Int), s₁ ≠ s₂ →
      ((i, c), n, s₁) ∈
        (findHydrophobicInteractionsByAtom site grid maxDist).map hydroRecKey →
      ((i, c), n, s₂) ∈
        (findHydrophobicInteractionsByAtom site grid maxDist).map hydroRecKey →
      ∃ r₁ ∈ findHydrophobicInteractionsByAtom site grid maxDist,
        ∃ r₂ ∈ findHydrophobicInteractionsByAtom site grid maxDist,
          r₁ ≠ r₂ ∧ r₁.residue = (i, c) ∧ r₁.aa = n ∧
            r₂.residue = (i, c) ∧ r₂.aa = n) := by
  have hout : findHydrophobicInteractionsByAtom site grid maxDist =
      assignIndices HydrophobicInteraction.setIndex
        (sortByKey (fun r => r.distance)
          (hydroByAtomOuter grid maxDist site.ligand.atoms ([], [])).2) 1 := rfl
  have hmapeq : (findHydrophobicInteractionsByAtom site grid maxDist).map hydroRecKey =
      (sortByKey (fun r => r.distance)
        (hydroByAtomOuter grid maxDist site.ligand.atoms ([], [])).2).map hydroRecKey := by
    rw [hout, assignIndices_map_eq HydrophobicInteraction.setIndex hydroRecKey
      (fun r n => rfl)]
  have hperm : ((findHydrophobicInteractionsByAtom site grid maxDist).map
      hydroRecKey).Perm
      ((hydroByAtomOuter grid maxDist site.ligand.atoms ([], [])).2.map hydroRecKey) := by
    rw [hmapeq]
    exact sortByKey_map_perm _ _ _
  obtain ⟨⟨hnd, hiff⟩, hchar⟩ := hydroByAtomOuter_spec grid maxDist
    site.ligand.atoms [] [] ⟨by simp, fun k => by simp⟩
  have hmem : ∀ k : HydroKey,
      hydroKeyToRecKey k ∈
          (findHydrophobicInteractionsByAtom site grid maxDist).map hydroRecKey ↔
        (∃ la ∈ site.ligand.atoms, ∃ pa ∈ findNeighbors grid la maxDist,
          isHydrophobicResidue pa.resn = true ∧
          sqrtLe (dist2 la pa) maxDist = true ∧
          k = (pa.chain, pa.resi, pa.resn, la.serial)) := by
    intro k
    rw [hperm.mem_iff, ← hiff k, hchar k]
    simp
  refine ⟨hperm.nodup_iff.mpr hnd, ?_, ?_⟩
  · intro c i n s
    have := hmem (c, i, n, s)
    rw [show hydroKeyToRecKey (c, i, n, s) = ((i, c), n, s) from rfl] at this
    rw [this]
    constructor
    · rintro ⟨la, hla, pa, hpa, hh, hs, hk⟩
      obtain ⟨hc, hi, hn, hser⟩ : c = pa.chain ∧ i = pa.resi ∧ n = pa.resn ∧
          s = la.serial := by simpa [Prod.ext_iff] using hk
      exact ⟨la, hla, hser.symm, pa, hpa, hh, hs, hc.symm, hi.symm, hn.symm⟩
    · rintro ⟨la, hla, hser, pa, hpa, hh, hs, hc, hi, hn⟩
      exact ⟨la, hla, pa, hpa, hh, hs, by simp [Prod.ext_iff, hc, hi, hn, hser]⟩
  · intro c i n s₁ s₂ hne hm1 hm2
    obtain ⟨r₁, hr₁, hk₁⟩ := List.mem_map.mp hm1
    obtain ⟨r₂, hr₂, hk₂⟩ := List.mem_map.mp hm2
    have hk₁' : (r₁.residue, r₁.aa, r₁.ligandAtomSerial) = ((i, c), n, s₁) := hk₁
    have hk₂' : (r₂.residue, r₂.aa, r₂.ligandAtomSerial) = ((i, c), n, s₂) := hk₂
    refine ⟨r₁, hr₁, r₂, hr₂, ?_, (Prod.ext_iff.mp hk₁').1,
      (Prod.ext_iff.mp (Prod.ext_iff.mp hk₁').2).1,
      (Prod.ext_iff.mp hk₂').1,
      (Prod.ext_iff.mp (Prod.ext_iff.mp hk₂').2).1⟩
    intro h
    apply hne
    have heq : (((i, c), n, s₁) : (Int × String) × String × Int) =
        ((i, c), n, s₂) := hk₁.symm.trans (h ▸ hk₂)
    exact (Prod.ext_iff.mp (Prod.ext_iff.mp heq).2).2

/-- Witness for the amended **C6** claim: on a site with two
distinct-serial ligand atoms near the same ALA residue, the by-atom
classifier provably yields two distinct records for that residue. -/
theorem hydrophobic_byatom_dedup_exact_witness :
    ∃ r₁ ∈ findHydrophobicInteractionsByAtom wSite wGrid 4,
      ∃ r₂ ∈ findHydrophobicInteractionsByAtom wSite wGrid 4,
        r₁ ≠ r₂ ∧ r₁.residue = (1, "A") ∧ r₁.aa = "ALA" ∧
          r₂.residue = (1, "A") ∧ r₂.aa = "ALA" := by
  have h1 : findNeighbors wGrid wLig1 4 = [wProteinCB] := by
    show findAtomsWithinRadius (buildSpatialGrid [wProteinCB] 5)
      wLig1.x wLig1.y wLig1.z 4 = [wProteinCB]
    rw [findAtomsWithinRadius_singleton wProteinCB (by norm_num) (by norm_num)]
    norm_num [withinRadius, dist2P, wLig1, wProteinCB]
  have h2 : findNeighbors wGrid wLig2 4 = [wProteinCB] := by
    show findAtomsWithinRadius (buildSpatialGrid [wProteinCB] 5)
      wLig2.x wLig2.y wLig2.z 4 = [wProteinCB]
    rw [findAtomsWithinRadius_singleton wProteinCB (by norm_num) (by norm_num)]
    norm_num [withinRadius, dist2P, wLig2, wProteinCB]
  simp only [wLig1, wLig2, wProteinCB] at h1 h2
  refine (hydrophobic_byatom_dedup_exact wSite wGrid 4).2.2 "A" 1 "ALA" 101 102
    (by decide) ?_ ?_ <;>
    norm_num +decide [findHydrophobicInteractionsByAtom, hydroByAtomOuter,
      hydroByAtomInner, isHydrophobicResidue, jsToUpper, HYDROPHOBIC_RESIDUES,
      sqrtLe, dist2, mkHydrophobicRec, sortByKey, List.insertionSort,
      List.orderedInsert, assignIndices, HydrophobicInteraction.setIndex,
      hydroRecKey, h1, h2, wSite, wLigand, wLig1, wLig2, wProteinCB]

/-! ## Lemmas: hydrogen-bond record provenance -/

/-- A ligand atom with no donor/acceptor capability never yields an
H-bond candidate (every guard path returns `none`). -/
theorem hbondCandidate_skip (la pa : Atom) (maxDist : ℚ) (i : Nat)
    (h1 : (getLigandAtomProperties la).donor = false)
    (h2 : (getLigandAtomProperties la).acceptor = false) :
    hbondCandidate la pa maxDist i = none := by
  simp [hbondCandidate, h1, h2]

theorem hbondInner_mem (la : Atom) (maxDist : ℚ) :
    ∀ (pas : List Atom) (acc : List HbondInteraction) (r : HbondInteraction),
      r ∈ hbondInner la maxDist pas acc →
        r ∈ acc ∨ ∃ pa ∈ pas, ∃ i, hbondCandidate la pa maxDist i = some r := by
  intro pas
  induction pas with
  | nil => intro acc r h; exact Or.inl h
  | cons pa rest ih =>
    intro acc r h
    replace h : r ∈ (match hbondCandidate la pa maxDist (acc.length + 1) with
      | some rec0 => hbondInner la maxDist rest (acc ++ [rec0])
      | none => hbondInner la maxDist rest acc) := h
    cases hc : hbondCandidate la pa maxDist (acc.length + 1) with
    | some rec0 =>
      rw [hc] at h
      rcases ih (acc ++ [rec0]) r h with hr | ⟨pb, hpb, i, hcb⟩
      · rcases List.mem_append.mp hr with hr' | hr'
        · exact Or.inl hr'
        · refine Or.inr ⟨pa, List.mem_cons_self pa rest, acc.length + 1, ?_⟩
          rw [hc, List.mem_singleton.mp hr']
      · exact Or.inr ⟨pb, List.mem_cons_of_mem pa hpb, i, hcb⟩
    | none =>
      rw [hc] at h
      rcases ih acc r h with hr | ⟨pb, hpb, i, hcb⟩
      · exact Or.inl hr
      · exact Or.inr ⟨pb, List.mem_cons_of_mem pa hpb, i, hcb⟩

theorem hbondOuter_mem (grid : SpatialGrid) (maxDist : ℚ) :
    ∀ (atoms : List Atom) (acc : List HbondInteraction) (r : HbondInteraction),
      r ∈ hbondOuter grid maxDist atoms acc →
        r ∈ acc ∨ ∃ la ∈ atoms, ∃ pa ∈ findNeighbors grid la maxDist,
          ∃ i, hbondCandidate la pa maxDist i = some r := by
  intro atoms
  induction atoms with
  | nil => intro acc r h; exact Or.inl h
  | cons la rest ih =>
    intro acc r h
    replace h : r ∈ (if ¬(getLigandAtomProperties la).donor ∧
        ¬(getLigandAtomProperties la).acceptor then hbondOuter grid maxDist rest acc
      else hbondOuter grid maxDist rest
        (hbondInner la maxDist (findNeighbors grid la maxDist) acc)) := h
    by_cases hlp : ¬(getLigandAtomProperties la).donor ∧
        ¬(getLigandAtomProperties la).acceptor
    · rw [if_pos hlp] at h
      rcases ih acc r h with hr | ⟨lb, hlb, rest'⟩
      · exact Or.inl hr
      · exact Or.inr ⟨lb, List.mem_cons_of_mem la hlb, rest'⟩
    · rw [if_neg hlp] at h
      rcases ih _ r h with hr | ⟨lb, hlb, rest'⟩
      · rcases hbondInner_mem la maxDist _ acc r hr with hr' | ⟨pa, hpa, i, hcb⟩
        · exact Or.inl hr'
        · exact Or.inr ⟨la, List.mem_cons_self la rest, pa, hpa, i, hcb⟩
      · exact Or.inr ⟨lb, List.mem_cons_of_mem la hlb, rest'⟩

/-- Inversion of a successful H-bond candidate: the record's shape and
the validity of at least one donor→acceptor direction. -/
theorem hbondCandidate_inv {la pa : Atom} {maxDist : ℚ} {i : Nat}
    {r : HbondInteraction} (h : hbondCandidate la pa maxDist i = some r) :
    r = mkHbondRec la pa (dist2 la pa)
        ((getProteinAtomProperties pa).donor && (getLigandAtomProperties la).acceptor)
        (getProteinAtomProperties pa).sideChain i ∧
    (((getProteinAtomProperties pa).donor &&
        (getLigandAtomProperties la).acceptor) = true ∨
      ((getLigandAtomProperties la).donor &&
        (getProteinAtomProperties pa).acceptor) = true) := by
  simp only [hbondCandidate] at h
  split at h
  · exact absurd h (by simp)
  · split at h
    · exact absurd h (by simp)
    · split at h
      · exact absurd h (by simp)
      · next hdir =>
        refine ⟨(Option.some_injective _ h).symm, ?_⟩
        by_cases hpd : ((getProteinAtomProperties pa).donor &&
            (getLigandAtomProperties la).acceptor) = true
        · exact Or.inl hpd
        · refine Or.inr ?_
          by_cases hld : ((getLigandAtomProperties la).donor &&
              (getProteinAtomProperties pa).acceptor) = true
          · exact hld
          · exact absurd ⟨hpd, hld⟩ hdir

/-- **C7, counterexample.** The worker's inlined H-bond classifier — the
one the pipeline executes — has no per-residue lookup table, and records
an aspartate carboxylate oxygen (ASP OD1) as the DONOR of a hydrogen
bond, which the claim forbids. -/
theorem worker_hbond_records_asp_carboxylate_as_donor :
    ({ index := 1, residue := (some 1, "A"), aa := "ASP", distanceHA := 0
       distanceDA := 9, donorAngle := 0, proteinDonor := true, sideChain := true
       donorAtomSerial := some 11, acceptorAtomSerial := some 101
       donorAtomName := "OD1", acceptorAtomName := "O1" } : JHbondInteraction) ∈
      findHbondInteractionsW wJSite wJGrid (7/2) := by
  have h1 : findNeighborsW wJGrid wJLig1 (7/2) (some 101) = [(wAspOD1, 9)] := by
    show findNeighborsW (buildSpatialGridW [wAspOD1] 5) wJLig1 (7/2) (some 101) =
      [(wAspOD1, 9)]
    rw [findNeighborsW_singleton wAspOD1 (by norm_num) (by norm_num) rfl rfl rfl
      (some 101)]
    norm_num +decide [bruteForceNeighborsW, jsStrictEq, jdist2, wAspOD1,
      List.filterMap_cons, List.filterMap_nil]
  simp only [wJLig1, wAspOD1] at h1
  norm_num +decide [findHbondInteractionsW, proteinDonorAcceptorsW,
    workerProteinProps, jsTrim, jsToUpper, mapSet, mapFind?, hbondCandidateW,
    hbondOuterW, hbondInnerW, mkJHbondRec, sqrtLe, sortByKey, List.insertionSort,
    List.orderedInsert, assignIndices, JHbondInteraction.setIndex, h1,
    wJSite, wJLigand, wJLig1, wAspOD1]

/-- **C7, amended.** In the library H-bond classifier (`hbond.ts`),
protein atoms named in the fixed per-residue table are classified exactly
as the table says: ASP OD1/OD2 and GLU OE1/OE2 are acceptor-only and
never recorded as the donor of a hydrogen bond; ARG NH1/NH2/NE are
donor-only and never recorded as the acceptor; atoms covered by neither
the backbone-name rules nor the table fall back to the element rule
(N, O or S ⇒ both donor and acceptor).  (The worker's inlined copy lacks
the table — see the counterexample.) -/
theorem hbond_table_classification :
    (∀ atom : Atom, jsToUpper atom.resn = "ASP" →
      (jsToUpper (jsTrim atom.atomName) = "OD1" ∨
        jsToUpper (jsTrim atom.atomName) = "OD2") →
      getProteinAtomProperties atom = ⟨false, true, true⟩) ∧
    (∀ atom : Atom, jsToUpper atom.resn = "GLU" →
      (jsToUpper (jsTrim atom.atomName) = "OE1" ∨
        jsToUpper (jsTrim atom.atomName) = "OE2") →
      getProteinAtomProperties atom = ⟨false, true, true⟩) ∧
    (∀ atom : Atom, jsToUpper atom.resn = "ARG" →
      (jsToUpper (jsTrim atom.atomName) = "NH1" ∨
        jsToUpper (jsTrim atom.atomName) = "NH2" ∨
        jsToUpper (jsTrim atom.atomName) = "NE") →
      getProteinAtomProperties atom = ⟨true, false, true⟩) ∧
    (∀ atom : Atom, jsToUpper (jsTrim atom.atomName) ≠ "N" →
      jsToUpper (jsTrim atom.atomName) ≠ "O" →
      jsToUpper (jsTrim atom.atomName) ≠ "OT1" →
      jsToUpper (jsTrim atom.atomName) ≠ "OXT" →
      proteinDonorAcceptorRules (jsToUpper atom.resn,
        jsToUpper (jsTrim atom.atomName)) = none →
      (jsToUpper atom.element = "N" ∨ jsToUpper atom.element = "O" ∨
        jsToUpper atom.element = "S") →
      getProteinAtomProperties atom = ⟨true, true, true⟩) ∧
    (∀ (site : BindingSite) (grid : SpatialGrid) (maxDist : ℚ)
        (r : HbondInteraction), r ∈ findHbondInteractions site grid maxDist →
      ∃ la ∈ site.ligand.atoms, ∃ pa ∈ findNeighbors grid la maxDist,
        r.aa = pa.resn ∧ r.residue = (pa.resi, pa.chain) ∧
        ((getProteinAtomProperties pa).donor = false →
          r.proteinDonor = false ∧ r.donorAtomSerial = la.serial ∧
            r.acceptorAtomSerial = pa.serial) ∧
        ((getProteinAtomProperties pa).acceptor = false →
          r.proteinDonor = true ∧ r.donorAtomSerial = pa.serial ∧
            r.acceptorAtomSerial = la.serial)) := by
  refine ⟨?_, ?_, ?_, ?_, ?_⟩
  · intro atom hr hn
    unfold getProteinAtomProperties
    rcases hn with hn | hn <;> rw [hn, hr]
    · simp [show proteinDonorAcceptorRules ("ASP", "OD1") =
        some ⟨false, true, true⟩ from rfl]
    · simp [show proteinDonorAcceptorRules ("ASP", "OD2") =
        some ⟨false, true, true⟩ from rfl]
  · intro atom hr hn
    unfold getProteinAtomProperties
    rcases hn with hn | hn <;> rw [hn, hr]
    · simp [show proteinDonorAcceptorRules ("GLU", "OE1") =
        some ⟨false, true, true⟩ from rfl]
    · simp [show proteinDonorAcceptorRules ("GLU", "OE2") =
        some ⟨false, true, true⟩ from rfl]
  · intro atom hr hn
    unfold getProteinAtomProperties
    rcases hn with hn | hn | hn <;> rw [hn, hr]
    · simp [show proteinDonorAcceptorRules ("ARG", "NH1") =
        some ⟨true, false, true⟩ from rfl]
    · simp [show proteinDonorAcceptorRules ("ARG", "NH2") =
        some ⟨true, false, true⟩ from rfl]
    · simp [show proteinDonorAcceptorRules ("ARG", "NE") =
        some ⟨true, false, true⟩ from rfl]
  · intro atom h1 h2 h3 h4 htab he
    unfold getProteinAtomProperties
    rw [if_neg h1, if_neg (by simp [h2, h3, h4]), htab]
    rcases he with he | he | he <;> rw [he] <;> simp
  · intro site grid maxDist r hr
    have hout : findHbondInteractions site grid maxDist =
        assignIndices HbondInteraction.setIndex
          (sortByKey (fun q => q.distanceDA)
            (hbondOuter grid maxDist site.ligand.atoms [])) 1 := rfl
    rw [hout] at hr
    obtain ⟨r₀, hr₀, m, rfl⟩ := mem_assignIndices hr
    have hr₀' : r₀ ∈ hbondOuter grid maxDist site.ligand.atoms [] :=
      mem_sortByKey.mp hr₀
    rcases hbondOuter_mem grid maxDist site.ligand.atoms [] r₀ hr₀' with
      hnil | ⟨la, hla, pa, hpa, i, hcb⟩
    · simp at hnil
    · obtain ⟨hshape, hdir⟩ := hbondCandidate_inv hcb
      subst hshape
      refine ⟨la, hla, pa, hpa, rfl, rfl, ?_, ?_⟩
      · intro hd
        refine ⟨?_, ?_, ?_⟩ <;>
          simp [HbondInteraction.setIndex, mkHbondRec, hd]
      · intro ha
        have hpd : ((getProteinAtomProperties pa).donor &&
            (getLigandAtomProperties la).acceptor) = true := by
          rcases hdir with hpd | hld
          · exact hpd
          · rw [ha] at hld
            simp at hld
        refine ⟨?_, ?_, ?_⟩ <;>
          simp [HbondInteraction.setIndex, mkHbondRec, hpd]

/-- Witness for the amended **C7**: the table classifications evaluated
at concrete ASP OD1 and ARG NE atoms, the element fallback at a MET SD
sulfur, and a concrete classifier record involving the ASP oxygen where
the ligand side is the donor. -/
theorem hbond_table_classification_witness :
    getProteinAtomProperties wAspOD1Q = ⟨false, true, true⟩ ∧
    getProteinAtomProperties wArgNE = ⟨true, false, true⟩ ∧
    getProteinAtomProperties wFallbackS = ⟨true, true, true⟩ :=
  ⟨hbond_table_classification.1 wAspOD1Q (by decide) (Or.inl (by decide)),
   hbond_table_classification.2.2.1 wArgNE (by decide) (Or.inr (Or.inr (by decide))),
   hbond_table_classification.2.2.2.1 wFallbackS (by decide) (by decide) (by decide)
     (by decide) (by decide) (Or.inr (Or.inr (by decide)))⟩

end BioTender
